import Mathlib

/-!
# Verification of the multipart object-copy orchestrator

Shallow embedding of `lib/common/multipart-copy.js`: the part planner
`_divideMultipartCopyParts`, the metadata fetch `_getObjectMeta`, the per-part
job `uploadPartJob`, the resume driver `_resumeMultipartCopy` and the entry
point `multipartUploadCopy`.

Modelling conventions:
* JavaScript numbers that hold byte counts / part numbers are modelled as `ℕ`.
  The one signed computation, `copySize = endOffset - startOffset`, is modelled
  with truncated `ℕ` subtraction: a negative JS result and a truncated-to-zero
  result are both `< minPartSize` (indeed `endOffset - startOffset < m` holds in
  `ℕ` exactly when it holds in `ℤ`, since `e - s < m ↔ e < s + m` in both), so
  the observable validation behaviour is identical.
* The remote collaborators (`this.head`, `initMultipartUpload`,
  `this.request` inside `uploadPartCopy`, `completeMultipartUpload`), the
  caller-supplied `progress` callback, the sizing helper `_getPartSize` and
  the environment probe `checkBrowserAndVersion` live outside this file's
  source; their outcomes are oracle fields of `Collab`, and every call is
  recorded as an event so that theorems can speak about which remote calls a
  run performs.
* Asynchronous generator execution is embedded as explicit state threading.
  In one invocation nothing in this source mutates the cancel flag after the
  initial `resetCancelFlag()`, so the flag is a constant of the run; jobs
  still re-read it exactly where the source does.  The nondeterministic
  completion order of the parallel job pool is abstracted by an explicit
  schedule `sched` (the order in which the submitted jobs finish).
-/

/-- One `{number, etag}` entry of `checkpoint.doneParts`. -/
structure DonePart where
  number : Nat
  etag : String
deriving DecidableEq

/-- One `{start, end}` entry produced by `_divideMultipartCopyParts`.
`end` is a Lean keyword, hence the field name `end_`. -/
structure PartOff where
  start : Nat
  end_ : Nat
deriving DecidableEq

/-- The checkpoint record built at `multipart-copy.js:85-91` and consumed by
`_resumeMultipartCopy`. -/
structure Checkpoint where
  name : String
  copySize : Nat
  partSize : Nat
  uploadId : String
  doneParts : List DonePart
deriving DecidableEq

/-- Caller-supplied `sourceData` (offsets optional, as in the JS API). -/
structure SourceData where
  sourceKey : String
  sourceBucketName : String
  startOffset : Option Nat := none
  endOffset : Option Nat := none
deriving DecidableEq

/-- `sourceData` after the defaulting at `multipart-copy.js:63-64` mutated the
two offset fields to concrete numbers. -/
structure SourceDataR where
  sourceKey : String
  sourceBucketName : String
  startOffset : Nat
  endOffset : Nat
deriving DecidableEq

/-- The caller-visible `options` fields this source reads.  `copyheaders`,
`mime` and `headers` are only forwarded verbatim onto the wire and play no
role in any claim, so they are not modelled. -/
structure MpOptions where
  partSize : Option Nat := none
  parallel : Option Nat := none
  checkpoint : Option Checkpoint := none
  hasProgress : Bool := false
deriving DecidableEq

/-- A thrown JS `Error`: its `message` and the `partNum` field that
`uploadPartJob`'s catch block attaches (`multipart-copy.js:146`). -/
structure JsErr where
  message : String
  partNum : Option Nat := none
deriving DecidableEq

/-- Everything one invocation can throw: the two local validation throws
(`multipart-copy.js:74,78`), the cancel event from `_makeCancelEvent`, and
any JS error coming out of a collaborator call or a part job. -/
inductive CopyErr where
  | validation (message : String)
  | cancel
  | js (e : JsErr)
deriving DecidableEq

/-- Ambient client state touched by this source: the cooperative cancel flag
(`resetCancelFlag` / `isCancel`) and the current bucket switched by
`_getObjectMeta`. -/
structure ClientState where
  cancelFlag : Bool
  bucket : String
deriving DecidableEq

/-- Observable calls of one run, in order.  `head`, `initUpload`, `partCopy`
and `complete` are the remote operations; `progress` is the caller-supplied
callback invocation (with the ratio and the checkpoint's `doneParts` at call
time). -/
inductive Ev where
  | head (bucket key : String)
  | initUpload (name : String)
  | partCopy (name uploadId : String) (partNo : Nat) (range : String)
      (sourceBucket sourceKey : String)
  | complete (name uploadId : String) (parts : List DonePart)
  | progress (ratio : ℚ) (done : List DonePart)
deriving DecidableEq

/-- Outcomes of the external collaborators (spec §6) and of the two helpers of
this repository that are not in this file's source:

* `getPartSize` — modelled from the spec: `_getPartSize` is "a pluggable
  sizing function" computing the part size from the copy size and the
  caller's optional `partSize` (§4.3); its value is an arbitrary oracle.
* `isIE10` — outcome of `checkBrowserAndVersion('Internet Explorer', '10')`,
  an environment probe.

`headRes` is the `content-length` reported by the head request, `copyRes p`
the etag (or error) of the part-copy call for part `p`, `completeRes` the
final result, `progressRes` the outcome of the caller's progress callback. -/
structure Collab where
  headRes : Except JsErr Nat
  initRes : Except JsErr String
  copyRes : Nat → Except JsErr String
  completeRes : List DonePart → Except JsErr String
  progressRes : ℚ → Except JsErr Unit
  getPartSize : Nat → Option Nat → Nat
  isIE10 : Bool

/-- JS `x || d` for an optional numeric field: `0`, like an absent field, is
falsy (used at `multipart-copy.js:63,64,156`). -/
def jsOr (x : Option Nat) (d : Nat) : Nat :=
  match x with
  | some v => if v = 0 then d else v
  | none => d

instance {ε α : Type} [DecidableEq ε] [DecidableEq α] : DecidableEq (Except ε α) := fun x y =>
  match x, y with
  | Except.ok a, Except.ok b =>
    if h : a = b then isTrue (by rw [h]) else isFalse (by intro hc; cases hc; exact h rfl)
  | Except.ok _, Except.error _ => isFalse (by intro hc; cases hc)
  | Except.error _, Except.ok _ => isFalse (by intro hc; cases hc)
  | Except.error e, Except.error f =>
    if h : e = f then isTrue (by rw [h]) else isFalse (by intro hc; cases hc; exact h rfl)

/-- Result of `_getObjectMeta`. -/
structure MetaRes where
  trace : List Ev
  state : ClientState
  result : Except JsErr Nat
deriving DecidableEq

/-- Result of `_resumeMultipartCopy`: the run's events, the client state, the
checkpoint as mutated by the jobs, and the returned value or thrown error. -/
structure ResumeRes where
  trace : List Ev
  state : ClientState
  checkpoint : Checkpoint
  result : Except CopyErr String
deriving DecidableEq

/-- Result of `multipartUploadCopy`.  `checkpoint` is the checkpoint object
the invocation was working on (`none` when it failed before one existed). -/
structure CopyRes where
  trace : List Ev
  state : ClientState
  checkpoint : Option Checkpoint
  result : Except CopyErr String
deriving DecidableEq

/-- `_divideMultipartCopyParts` (multipart-copy.js:191-206).
`Math.ceil(fileSize / partSize)` on naturals with `partSize > 0` is
`(fileSize + partSize - 1) / partSize`. -/
def _divideMultipartCopyParts (fileSize partSize startOffset : Nat) : List PartOff :=
  let numParts := (fileSize + partSize - 1) / partSize
  (List.range numParts).map (fun i =>
    { start := partSize * i + startOffset
      end_ := min (partSize * i + startOffset + partSize) (fileSize + startOffset) })

/-- `_getObjectMeta` (multipart-copy.js:214-220): switch to the source bucket,
issue the head request, and restore the bucket — the restore line is skipped
when the head request throws. -/
def _getObjectMeta (c : Collab) (st : ClientState) (bucket name : String) : MetaRes :=
  let currentBucket := st.bucket
  let st2 : ClientState := { st with bucket := bucket }
  match c.headRes with
  | Except.error e => ⟨[Ev.head bucket name], st2, Except.error e⟩
  | Except.ok n => ⟨[Ev.head bucket name], { st2 with bucket := currentBucket }, Except.ok n⟩

/-- `uploadPartCopy` (multipart-copy.js:22-46): one remote part-copy call.
The copy-source descriptor, range header and `partNumber`/`uploadId` subres
are carried by the emitted event; the resulting etag comes from the oracle. -/
def uploadPartCopy (c : Collab) (name uploadId : String) (partNo : Nat) (range : String)
    (sourceBucketName sourceKey : String) : List Ev × Except JsErr String :=
  ([Ev.partCopy name uploadId partNo range sourceBucketName sourceKey], c.copyRes partNo)

/-- The range string `` `${pi.start}-${pi.end - 1}` `` built at
multipart-copy.js:129 from `partOffs[partNo - 1]`.  All call sites reach this
with `partNo` drawn from `1..numParts`, so the JS out-of-range access cannot
occur; the `ℕ` model totalizes it with a dummy `⟨0, 0⟩` entry. -/
def partRangeStr (partOffs : List PartOff) (partNo : Nat) : String :=
  let pi := partOffs.getD (partNo - 1) ⟨0, 0⟩
  toString pi.start ++ "-" ++ toString (pi.end_ - 1)

/-- `uploadPartJob` (multipart-copy.js:125-150): skip entirely if cancelled,
otherwise perform the part-copy call; on success (and if still not cancelled)
append the `{number, etag}` entry to `doneParts` and invoke the progress
callback with `doneParts.length / numParts`; any error thrown inside the try
block (the copy call or the progress callback) gets `err.partNum = partNo`
attached. -/
def uploadPartJob (c : Collab) (cancelFlag : Bool) (options : MpOptions)
    (name uploadId : String) (partOffs : List PartOff) (numParts : Nat)
    (src : SourceDataR) (doneParts : List DonePart) (partNo : Nat) :
    List Ev × List DonePart × Except JsErr Unit :=
  if cancelFlag then ([], doneParts, Except.ok ())
  else
    let range := partRangeStr partOffs partNo
    let call := uploadPartCopy c name uploadId partNo range src.sourceBucketName src.sourceKey
    match call.2 with
    | Except.error e => (call.1, doneParts, Except.error { e with partNum := some partNo })
    | Except.ok etag =>
      if cancelFlag then (call.1, doneParts, Except.ok ())
      else
        let doneParts2 := doneParts ++ [⟨partNo, etag⟩]
        if options.hasProgress then
          let ratio : ℚ := (doneParts2.length : ℚ) / (numParts : ℚ)
          match c.progressRes ratio with
          | Except.error e =>
            (call.1 ++ [Ev.progress ratio doneParts2], doneParts2,
              Except.error { e with partNum := some partNo })
          | Except.ok _ =>
            (call.1 ++ [Ev.progress ratio doneParts2], doneParts2, Except.ok ())
        else (call.1, doneParts2, Except.ok ())

/-- The sequential fallback loop (multipart-copy.js:159-164): before each job
re-check the cancel flag, run the job, and propagate its error immediately
(unwrapped — the message rewrite of the parallel branch does not happen
here). -/
def seqLoop (c : Collab) (cancelFlag : Bool) (options : MpOptions)
    (name uploadId : String) (partOffs : List PartOff) (numParts : Nat)
    (src : SourceDataR) :
    List DonePart → List Nat → List Ev × List DonePart × Except CopyErr Unit
  | doneParts, [] => ([], doneParts, Except.ok ())
  | doneParts, partNo :: rest =>
    if cancelFlag then ([], doneParts, Except.error CopyErr.cancel)
    else
      let j := uploadPartJob c cancelFlag options name uploadId partOffs numParts src
        doneParts partNo
      match j.2.2 with
      | Except.error e => (j.1, j.2.1, Except.error (CopyErr.js e))
      | Except.ok _ =>
        let r := seqLoop c cancelFlag options name uploadId partOffs numParts src
          j.2.1 rest
        (j.1 ++ r.1, r.2.1, r.2.2)

/-- Execution of the submitted jobs in their completion order `order`,
threading the shared `doneParts` and pairing each failed job's number with
its error, in completion order. -/
def runJobsC (c : Collab) (cancelFlag : Bool) (options : MpOptions)
    (name uploadId : String) (partOffs : List PartOff) (numParts : Nat)
    (src : SourceDataR) :
    List DonePart → List Nat → List Ev × List DonePart × List (Nat × JsErr)
  | doneParts, [] => ([], doneParts, [])
  | doneParts, partNo :: rest =>
    let j := uploadPartJob c cancelFlag options name uploadId partOffs numParts src
      doneParts partNo
    let r := runJobsC c cancelFlag options name uploadId partOffs numParts src
      j.2.1 rest
    (j.1 ++ r.1,
     r.2.1,
     (match j.2.2 with
      | Except.error e => [(partNo, e)]
      | Except.ok _ => []) ++ r.2.2)

/-- Modelled from the spec: `_thunkPool` is code of this repository outside
this source file.  Per §4.4 (JobPool) it runs the submitted jobs with bounded
concurrency, "collects ALL job outcomes (does not abort early on first
error)", and reports the error slate in job(-submission) order; the caller at
multipart-copy.js:181-184 reads that slate as a plain list of the errors.
The bounded interleaving is abstracted by `sched`, the order in which the
submitted jobs finish; `todo` is the submission order. -/
def _thunkPool (c : Collab) (cancelFlag : Bool) (options : MpOptions)
    (name uploadId : String) (partOffs : List PartOff) (numParts : Nat)
    (src : SourceDataR) (doneParts : List DonePart) (todo sched : List Nat) :
    List Ev × List DonePart × List JsErr :=
  let r := runJobsC c cancelFlag options name uploadId partOffs numParts src doneParts sched
  (r.1, r.2.1,
   todo.filterMap (fun p => (r.2.2.find? (fun q => q.1 == p)).map (fun q => q.2)))

/-- `${err.toString()}`/`${err.partNum}` interpolation of an `Option ℕ`
(`undefined` prints as the string `undefined`). -/
def optNumStr : Option Nat → String
  | some n => toString n
  | none => "undefined"

/-- The error-message rewrite of multipart-copy.js:183 (`err.toString()` on a
JS `Error` prints as `Error: <message>`). -/
def rewriteErr (e : JsErr) : JsErr :=
  { e with
    message := "Failed to copy some parts with error: Error: " ++ e.message ++
      " part_num: " ++ optNumStr e.partNum }

/-- `_resumeMultipartCopy` (multipart-copy.js:106-189). -/
def _resumeMultipartCopy (c : Collab) (sched : List Nat) (st : ClientState)
    (checkpoint : Checkpoint) (sourceData : SourceDataR) (options : MpOptions) :
    ResumeRes :=
  if st.cancelFlag then ⟨[], st, checkpoint, Except.error CopyErr.cancel⟩
  else
    let partOffs := _divideMultipartCopyParts checkpoint.copySize checkpoint.partSize
      sourceData.startOffset
    let numParts := partOffs.length
    let all := (List.range numParts).map (fun i => i + 1)
    let done := checkpoint.doneParts.map (fun p => p.number)
    let todo := all.filter (fun p => !(done.contains p))
    let parallel := jsOr options.parallel 5
    if c.isIE10 || parallel == 1 then
      let r := seqLoop c st.cancelFlag options checkpoint.name checkpoint.uploadId
        partOffs numParts sourceData checkpoint.doneParts todo
      match r.2.2 with
      | Except.error e => ⟨r.1, st, { checkpoint with doneParts := r.2.1 }, Except.error e⟩
      | Except.ok _ =>
        match c.completeRes r.2.1 with
        | Except.error e =>
          ⟨r.1 ++ [Ev.complete checkpoint.name checkpoint.uploadId r.2.1], st,
            { checkpoint with doneParts := r.2.1 }, Except.error (CopyErr.js e)⟩
        | Except.ok s =>
          ⟨r.1 ++ [Ev.complete checkpoint.name checkpoint.uploadId r.2.1], st,
            { checkpoint with doneParts := r.2.1 }, Except.ok s⟩
    else
      let r := _thunkPool c st.cancelFlag options checkpoint.name checkpoint.uploadId
        partOffs numParts sourceData checkpoint.doneParts todo sched
      if st.cancelFlag then
        ⟨r.1, st, { checkpoint with doneParts := r.2.1 }, Except.error CopyErr.cancel⟩
      else
        match r.2.2 with
        | e :: _ =>
          ⟨r.1, st, { checkpoint with doneParts := r.2.1 },
            Except.error (CopyErr.js (rewriteErr e))⟩
        | [] =>
          match c.completeRes r.2.1 with
          | Except.error e =>
            ⟨r.1 ++ [Ev.complete checkpoint.name checkpoint.uploadId r.2.1], st,
              { checkpoint with doneParts := r.2.1 }, Except.error (CopyErr.js e)⟩
          | Except.ok s =>
            ⟨r.1 ++ [Ev.complete checkpoint.name checkpoint.uploadId r.2.1], st,
              { checkpoint with doneParts := r.2.1 }, Except.ok s⟩

/-- The truthiness test `options.partSize && options.partSize < minPartSize`
of multipart-copy.js:77. -/
def badPartSizeOpt (partSize : Option Nat) (minPartSize : Nat) : Bool :=
  match partSize with
  | some ps => !(ps == 0) && decide (ps < minPartSize)
  | none => false

/-- The fresh-start tail of `multipartUploadCopy` (multipart-copy.js:70-97):
validate, initiate the upload, build the fresh checkpoint, report progress 0
and hand over to `_resumeMultipartCopy`. -/
def multipartUploadCopyFresh (c : Collab) (sched : List Nat) (st : ClientState)
    (name : String) (src : SourceDataR) (options : MpOptions) : CopyRes :=
  let minPartSize := 100 * 1024
  let copySize := src.endOffset - src.startOffset
  if copySize < minPartSize then
    ⟨[], st, none,
      Except.error (CopyErr.validation
        ("copySize must not be smaller than " ++ toString minPartSize))⟩
  else if badPartSizeOpt options.partSize minPartSize then
    ⟨[], st, none,
      Except.error (CopyErr.validation
        ("partSize must not be smaller than " ++ toString minPartSize))⟩
  else
    match c.initRes with
    | Except.error e => ⟨[Ev.initUpload name], st, none, Except.error (CopyErr.js e)⟩
    | Except.ok uploadId =>
      let partSize := c.getPartSize copySize options.partSize
      let checkpoint : Checkpoint := ⟨name, copySize, partSize, uploadId, []⟩
      if options.hasProgress then
        match c.progressRes 0 with
        | Except.error e =>
          ⟨[Ev.initUpload name, Ev.progress 0 []], st, some checkpoint,
            Except.error (CopyErr.js e)⟩
        | Except.ok _ =>
          let r := _resumeMultipartCopy c sched st checkpoint src options
          ⟨Ev.initUpload name :: Ev.progress 0 [] :: r.trace, r.state,
            some r.checkpoint, r.result⟩
      else
        let r := _resumeMultipartCopy c sched st checkpoint src options
        ⟨Ev.initUpload name :: r.trace, r.state, some r.checkpoint, r.result⟩

/-- The checkpoint dispatch of `multipartUploadCopy` (multipart-copy.js:66-68):
resume when a checkpoint with a truthy `uploadId` is supplied, otherwise run
the fresh tail.  `src` is the offset-resolved source data. -/
def multipartUploadCopyCont (c : Collab) (sched : List Nat) (st : ClientState)
    (name : String) (src : SourceDataR) (options : MpOptions) : CopyRes :=
  match options.checkpoint with
  | some cp =>
    if cp.uploadId ≠ "" then
      let r := _resumeMultipartCopy c sched st cp src options
      (⟨r.trace, r.state, some r.checkpoint, r.result⟩ : CopyRes)
    else multipartUploadCopyFresh c sched st name src options
  | none => multipartUploadCopyFresh c sched st name src options

/-- `multipartUploadCopy` (multipart-copy.js:58-98): reset the cancel flag,
fetch the source object's metadata, default the offsets, and dispatch via
`multipartUploadCopyCont` (resume on a truthy checkpoint, fresh path
otherwise). -/
def multipartUploadCopy (c : Collab) (sched : List Nat) (st0 : ClientState)
    (name : String) (sourceData : SourceData) (options : MpOptions) : CopyRes :=
  let st1 : ClientState := { st0 with cancelFlag := false }
  let gm := _getObjectMeta c st1 sourceData.sourceBucketName sourceData.sourceKey
  match gm.result with
  | Except.error e => ⟨gm.trace, gm.state, none, Except.error (CopyErr.js e)⟩
  | Except.ok fileSize =>
    let src : SourceDataR :=
      ⟨sourceData.sourceKey, sourceData.sourceBucketName,
        jsOr sourceData.startOffset 0, jsOr sourceData.endOffset fileSize⟩
    let cont := multipartUploadCopyCont c sched gm.state name src options
    ⟨gm.trace ++ cont.trace, cont.state, cont.checkpoint, cont.result⟩

/-! ## Claim C1: the part planner tiles the copy range -/

/-- C1: for every `copySize > 0`, `partSize > 0` and `startOffset ≥ 0`,
`_divideMultipartCopyParts copySize partSize startOffset` returns exactly
`⌈copySize / partSize⌉` parts (characterized by
`copySize ≤ numParts * partSize` and `(numParts - 1) * partSize < copySize`);
part `i` (0-indexed) spans
`[startOffset + i * partSize, min (startOffset + (i+1) * partSize, startOffset + copySize))`;
the parts are non-overlapping and contiguous, and their union is exactly
`[startOffset, startOffset + copySize)`; in particular
`copySize = 250000, partSize = 100000, startOffset = 0` yields the three parts
`[0,100000), [100000,200000), [200000,250000)`. -/
theorem divideMultipartCopyParts_tiles (c p s : Nat) (hc : 0 < c) (hp : 0 < p) :
    (_divideMultipartCopyParts c p s).length = c ⌈/⌉ p ∧
    c ≤ (_divideMultipartCopyParts c p s).length * p ∧
    ((_divideMultipartCopyParts c p s).length - 1) * p < c ∧
    (∀ i (h : i < (_divideMultipartCopyParts c p s).length),
      (_divideMultipartCopyParts c p s)[i] =
        ⟨s + i * p, min (s + (i + 1) * p) (s + c)⟩) ∧
    (∀ i j (hi : i < (_divideMultipartCopyParts c p s).length)
        (hj : j < (_divideMultipartCopyParts c p s).length), i < j →
      (_divideMultipartCopyParts c p s)[i].end_ ≤ (_divideMultipartCopyParts c p s)[j].start) ∧
    (∀ i (h : i + 1 < (_divideMultipartCopyParts c p s).length),
      (_divideMultipartCopyParts c p s)[i + 1].start =
        (_divideMultipartCopyParts c p s)[i].end_) ∧
    (∀ x, (s ≤ x ∧ x < s + c) ↔
      ∃ pt ∈ _divideMultipartCopyParts c p s, pt.start ≤ x ∧ x < pt.end_) ∧
    _divideMultipartCopyParts 250000 100000 0 =
      [⟨0, 100000⟩, ⟨100000, 200000⟩, ⟨200000, 250000⟩] := by
  have hlen : (_divideMultipartCopyParts c p s).length = (c + p - 1) / p := by
    simp [_divideMultipartCopyParts]
  have hget : ∀ i (h : i < (_divideMultipartCopyParts c p s).length),
      (_divideMultipartCopyParts c p s)[i] =
        ⟨s + i * p, min (s + (i + 1) * p) (s + c)⟩ := by
    intro i h
    have hi : i < (c + p - 1) / p := hlen ▸ h
    simp only [_divideMultipartCopyParts, List.getElem_map, List.getElem_range]
    refine congrArg₂ PartOff.mk (by ring) ?_
    refine congrArg₂ min (by ring) (by ring)
  -- ceiling characterization of the part count
  have hdm := Nat.div_add_mod (c + p - 1) p
  have hml : (c + p - 1) % p < p := Nat.mod_lt _ hp
  have hcl : c ≤ (c + p - 1) / p * p ∧ ((c + p - 1) / p - 1) * p < c := by
    rw [Nat.sub_mul, one_mul]
    generalize hq : (c + p - 1) / p = q at hdm
    have hqp : q * p = p * q := Nat.mul_comm q p
    rw [← hqp] at hdm
    generalize hm : q * p = m at hdm ⊢
    omega
  refine ⟨by rw [hlen, Nat.ceilDiv_eq_add_pred_div], hlen ▸ hcl.1, hlen ▸ hcl.2, hget,
    ?_, ?_, ?_, by decide⟩
  · -- non-overlap
    intro i j hi hj hij
    rw [hget i hi, hget j hj]
    have h1 : i + 1 ≤ j := hij
    have : s + (i + 1) * p ≤ s + j * p := by
      have := Nat.mul_le_mul_right p h1
      omega
    calc min (s + (i + 1) * p) (s + c) ≤ s + (i + 1) * p := Nat.min_le_left _ _
      _ ≤ s + j * p := this
  · -- contiguity
    intro i h
    have hi : i < (_divideMultipartCopyParts c p s).length := Nat.lt_of_succ_lt h
    rw [hget i hi, hget (i + 1) h]
    have hlt : i + 1 < (c + p - 1) / p := hlen ▸ h
    -- (i + 1) * p ≤ c, because i + 1 ≤ numParts - 1 and (numParts - 1) * p < c
    have hle : (i + 1) * p < c := by
      have h2 : i + 1 ≤ (c + p - 1) / p - 1 := by omega
      have h3 : (i + 1) * p ≤ ((c + p - 1) / p - 1) * p := Nat.mul_le_mul_right p h2
      exact Nat.lt_of_le_of_lt h3 hcl.2
    have : s + (i + 1) * p ≤ s + c := by omega
    simp [Nat.min_eq_left this]
  · -- union is exactly `[s, s + c)`
    intro x
    constructor
    · rintro ⟨hsx, hxc⟩
      set d := x - s with hd
      have hdd := Nat.div_add_mod d p
      have hdl : d % p < p := Nat.mod_lt _ hp
      have hmem : d / p < (_divideMultipartCopyParts c p s).length := by
        rw [hlen]
        by_contra hno
        push_neg at hno
        have h4 : (c + p - 1) / p * p ≤ d / p * p := Nat.mul_le_mul_right p hno
        have h5 : c ≤ d / p * p := Nat.le_trans hcl.1 h4
        have h6 : d / p * p = p * (d / p) := Nat.mul_comm _ _
        rw [h6] at h5
        generalize hm : p * (d / p) = m at h5 hdd
        omega
      have hstart : s + d / p * p ≤ x := by
        have h6 : d / p * p = p * (d / p) := Nat.mul_comm _ _
        rw [h6]
        generalize hm : p * (d / p) = m at hdd ⊢
        omega
      have hend1 : x < s + (d / p + 1) * p := by
        have h7 : (d / p + 1) * p = p * (d / p) + p := by ring
        rw [h7]
        generalize hm : p * (d / p) = m at hdd ⊢
        omega
      refine ⟨(_divideMultipartCopyParts c p s)[d / p], List.getElem_mem _, ?_⟩
      rw [hget (d / p) hmem]
      exact ⟨hstart, lt_min hend1 hxc⟩
    · rintro ⟨pt, hmem, hs, he⟩
      obtain ⟨i, hi, hpt⟩ := List.getElem_of_mem hmem
      rw [hget i hi] at hpt
      subst hpt
      simp only at hs he
      have h9 : min (s + (i + 1) * p) (s + c) ≤ s + c := Nat.min_le_right _ _
      constructor
      · exact Nat.le_trans (Nat.le_add_right s (i * p)) hs
      · omega

/-! ## Helper lemmas about part jobs and the job pool -/

/-- `true` iff a part-copy outcome is an error. -/
def isErrB : Except JsErr String → Bool
  | Except.error _ => true
  | Except.ok _ => false

/-- The part number carried by a `partCopy` event. -/
def evPartNo : Ev → Option Nat
  | Ev.partCopy _ _ partNo _ _ _ => some partNo
  | _ => none

/-- The `doneParts` entry the job for part `p` appends when its copy call
succeeds. -/
def okPush (c : Collab) (p : Nat) : Option DonePart :=
  match c.copyRes p with
  | Except.ok etag => some ⟨p, etag⟩
  | Except.error _ => none

/-- The `(partNo, error)` record the job for part `p` produces when its copy
call fails. -/
def errPair (c : Collab) (p : Nat) : Option (Nat × JsErr) :=
  match c.copyRes p with
  | Except.error e => some (p, { e with partNum := some p })
  | Except.ok _ => none

theorem uploadPartJob_doneParts (c : Collab) (options : MpOptions) (name uploadId : String)
    (partOffs : List PartOff) (numParts : Nat) (src : SourceDataR)
    (doneParts : List DonePart) (partNo : Nat) :
    (uploadPartJob c false options name uploadId partOffs numParts src doneParts partNo).2.1 =
      doneParts ++ (okPush c partNo).toList := by
  cases hcr : c.copyRes partNo with
  | error e => simp [uploadPartJob, uploadPartCopy, okPush, hcr]
  | ok etag =>
    by_cases hpg : options.hasProgress
    · simp only [uploadPartJob, uploadPartCopy, okPush, hcr, hpg, Bool.false_eq_true, if_false,
        if_true, eq_self_iff_true]
      split <;> simp
    · simp [uploadPartJob, uploadPartCopy, okPush, hcr, hpg]

theorem uploadPartJob_result_err (c : Collab) (options : MpOptions) (name uploadId : String)
    (partOffs : List PartOff) (numParts : Nat) (src : SourceDataR)
    (doneParts : List DonePart) (partNo : Nat) (e : JsErr)
    (hcr : c.copyRes partNo = Except.error e) :
    (uploadPartJob c false options name uploadId partOffs numParts src doneParts partNo).2.2 =
      Except.error { e with partNum := some partNo } := by
  simp [uploadPartJob, uploadPartCopy, hcr]

theorem uploadPartJob_result_ok (c : Collab) (options : MpOptions) (name uploadId : String)
    (partOffs : List PartOff) (numParts : Nat) (src : SourceDataR)
    (doneParts : List DonePart) (partNo : Nat) (etag : String)
    (hpr : ∀ q, c.progressRes q = Except.ok ())
    (hcr : c.copyRes partNo = Except.ok etag) :
    (uploadPartJob c false options name uploadId partOffs numParts src doneParts partNo).2.2 =
      Except.ok () := by
  by_cases hpg : options.hasProgress
  · simp [uploadPartJob, uploadPartCopy, hcr, hpg, hpr]
  · simp [uploadPartJob, uploadPartCopy, hcr, hpg]

theorem uploadPartJob_trace_parts (c : Collab) (options : MpOptions) (name uploadId : String)
    (partOffs : List PartOff) (numParts : Nat) (src : SourceDataR)
    (doneParts : List DonePart) (partNo : Nat) :
    (uploadPartJob c false options name uploadId partOffs numParts src
      doneParts partNo).1.filterMap evPartNo = [partNo] := by
  cases hcr : c.copyRes partNo with
  | error e => simp [uploadPartJob, uploadPartCopy, hcr, evPartNo]
  | ok etag =>
    by_cases hpg : options.hasProgress
    · simp only [uploadPartJob, uploadPartCopy, hcr, hpg, Bool.false_eq_true, if_false,
        if_true, eq_self_iff_true]
      split <;> simp [evPartNo]
    · simp [uploadPartJob, uploadPartCopy, hcr, hpg, evPartNo]

theorem uploadPartJob_trace_okprog (c : Collab) (options : MpOptions) (name uploadId : String)
    (partOffs : List PartOff) (numParts : Nat) (src : SourceDataR)
    (doneParts : List DonePart) (partNo : Nat) (etag : String)
    (hcr : c.copyRes partNo = Except.ok etag) (hpg : options.hasProgress = true) :
    (uploadPartJob c false options name uploadId partOffs numParts src doneParts partNo).1 =
      [Ev.partCopy name uploadId partNo (partRangeStr partOffs partNo)
        src.sourceBucketName src.sourceKey,
       Ev.progress ((doneParts.length + 1 : ℚ) / (numParts : ℚ))
        (doneParts ++ [⟨partNo, etag⟩])] := by
  simp only [uploadPartJob, uploadPartCopy, hcr, hpg, Bool.false_eq_true, if_false,
    if_true, eq_self_iff_true]
  split <;> simp

theorem uploadPartJob_progress_ratio (c : Collab) (options : MpOptions) (name uploadId : String)
    (partOffs : List PartOff) (numParts : Nat) (src : SourceDataR)
    (doneParts : List DonePart) (partNo : Nat) :
    ∀ ev ∈ (uploadPartJob c false options name uploadId partOffs numParts src
        doneParts partNo).1, ∀ q dps, ev = Ev.progress q dps →
      q = (doneParts.length + 1 : ℚ) / (numParts : ℚ) := by
  cases hcr : c.copyRes partNo with
  | error e => simp [uploadPartJob, uploadPartCopy, hcr]
  | ok etag =>
    by_cases hpg : options.hasProgress
    · rw [uploadPartJob_trace_okprog c options name uploadId partOffs numParts src
        doneParts partNo etag hcr hpg]
      intro ev hev q dps hq
      subst hq
      simp at hev
      exact hev.1
    · simp [uploadPartJob, uploadPartCopy, hcr, hpg]

theorem uploadPartJob_doneParts_length (c : Collab) (options : MpOptions)
    (name uploadId : String) (partOffs : List PartOff) (numParts : Nat) (src : SourceDataR)
    (doneParts : List DonePart) (partNo : Nat) :
    (uploadPartJob c false options name uploadId partOffs numParts src
      doneParts partNo).2.1.length ≤ doneParts.length + 1 := by
  rw [uploadPartJob_doneParts]
  cases hcr : c.copyRes partNo <;> simp [okPush, hcr]

theorem runJobsC_doneParts (c : Collab) (options : MpOptions) (name uploadId : String)
    (partOffs : List PartOff) (numParts : Nat) (src : SourceDataR) :
    ∀ (l : List Nat) (dp : List DonePart),
      (runJobsC c false options name uploadId partOffs numParts src dp l).2.1 =
        dp ++ l.filterMap (okPush c) := by
  intro l
  induction l with
  | nil => intro dp; simp [runJobsC]
  | cons p rest ih =>
    intro dp
    simp only [runJobsC]
    rw [ih, uploadPartJob_doneParts]
    cases hcr : c.copyRes p <;> simp [okPush, hcr, List.filterMap_cons]

theorem runJobsC_errors (c : Collab) (options : MpOptions) (name uploadId : String)
    (partOffs : List PartOff) (numParts : Nat) (src : SourceDataR)
    (hpr : ∀ q, c.progressRes q = Except.ok ()) :
    ∀ (l : List Nat) (dp : List DonePart),
      (runJobsC c false options name uploadId partOffs numParts src dp l).2.2 =
        l.filterMap (errPair c) := by
  intro l
  induction l with
  | nil => intro dp; simp [runJobsC]
  | cons p rest ih =>
    intro dp
    simp only [runJobsC]
    rw [ih]
    cases hcr : c.copyRes p with
    | error e =>
      rw [uploadPartJob_result_err c options name uploadId partOffs numParts src dp p e hcr]
      simp [errPair, hcr, List.filterMap_cons]
    | ok etag =>
      rw [uploadPartJob_result_ok c options name uploadId partOffs numParts src dp p etag
        hpr hcr]
      simp [errPair, hcr, List.filterMap_cons]

theorem runJobsC_trace_parts (c : Collab) (options : MpOptions) (name uploadId : String)
    (partOffs : List PartOff) (numParts : Nat) (src : SourceDataR) :
    ∀ (l : List Nat) (dp : List DonePart),
      (runJobsC c false options name uploadId partOffs numParts src
        dp l).1.filterMap evPartNo = l := by
  intro l
  induction l with
  | nil => intro dp; simp [runJobsC]
  | cons p rest ih =>
    intro dp
    simp only [runJobsC]
    rw [List.filterMap_append, uploadPartJob_trace_parts, ih]
    simp

/-- A ratio `k / numParts` with `1 ≤ k ≤ numParts` lies in `[0, 1]`. -/
theorem ratio_mem_unit (k np : Nat) (h1 : 1 ≤ k) (h2 : k ≤ np) :
    0 ≤ (k : ℚ) / (np : ℚ) ∧ (k : ℚ) / (np : ℚ) ≤ 1 := by
  have hnp : (0 : ℚ) < np := by
    have h3 : 0 < np := Nat.lt_of_lt_of_le Nat.zero_lt_one (le_trans h1 h2)
    exact_mod_cast h3
  constructor
  · positivity
  · rw [div_le_one hnp]
    exact_mod_cast h2

theorem runJobsC_progress_bound (c : Collab) (options : MpOptions) (name uploadId : String)
    (partOffs : List PartOff) (numParts : Nat) (src : SourceDataR) :
    ∀ (l : List Nat) (dp : List DonePart), dp.length + l.length ≤ numParts →
      ∀ ev ∈ (runJobsC c false options name uploadId partOffs numParts src dp l).1,
        ∀ q dps, ev = Ev.progress q dps → 0 ≤ q ∧ q ≤ 1 := by
  intro l
  induction l with
  | nil =>
    intro dp hle ev hev
    simp [runJobsC] at hev
  | cons p rest ih =>
    intro dp hle ev hev q dps hq
    simp only [runJobsC, List.mem_append] at hev
    simp only [List.length_cons] at hle
    rcases hev with hev | hev
    · have hr := uploadPartJob_progress_ratio c options name uploadId partOffs numParts src
        dp p ev hev q dps hq
      rw [hr]
      have hlen : dp.length + 1 ≤ numParts := by omega
      have h2 := ratio_mem_unit (dp.length + 1) numParts (by omega) hlen
      push_cast at h2
      exact h2
    · refine ih (uploadPartJob c false options name uploadId partOffs numParts src dp p).2.1
        ?_ ev hev q dps hq
      have hlen2 := uploadPartJob_doneParts_length c options name uploadId partOffs numParts
        src dp p
      omega

theorem seqLoop_progress_bound (c : Collab) (options : MpOptions) (name uploadId : String)
    (partOffs : List PartOff) (numParts : Nat) (src : SourceDataR) :
    ∀ (l : List Nat) (dp : List DonePart), dp.length + l.length ≤ numParts →
      ∀ ev ∈ (seqLoop c false options name uploadId partOffs numParts src dp l).1,
        ∀ q dps, ev = Ev.progress q dps → 0 ≤ q ∧ q ≤ 1 := by
  intro l
  induction l with
  | nil =>
    intro dp hle ev hev
    simp [seqLoop] at hev
  | cons p rest ih =>
    intro dp hle ev hev q dps hq
    simp only [seqLoop, Bool.false_eq_true, if_false] at hev
    simp only [List.length_cons] at hle
    have hjob : ∀ ev ∈ (uploadPartJob c false options name uploadId partOffs numParts src
        dp p).1, ev = Ev.progress q dps → 0 ≤ q ∧ q ≤ 1 := by
      intro ev2 hev2 hq2
      have hr := uploadPartJob_progress_ratio c options name uploadId partOffs numParts src
        dp p ev2 hev2 q dps hq2
      rw [hr]
      have hlen : dp.length + 1 ≤ numParts := by omega
      have h2 := ratio_mem_unit (dp.length + 1) numParts (by omega) hlen
      push_cast at h2
      exact h2
    split at hev
    · exact hjob ev hev hq
    · simp only [List.mem_append] at hev
      rcases hev with hev | hev
      · exact hjob ev hev hq
      · refine ih (uploadPartJob c false options name uploadId partOffs numParts src dp p).2.1
          ?_ ev hev q dps hq
        have hlen2 := uploadPartJob_doneParts_length c options name uploadId partOffs numParts
          src dp p
        omega

theorem seqLoop_error_shape (c : Collab) (cf : Bool) (options : MpOptions)
    (name uploadId : String) (partOffs : List PartOff) (numParts : Nat) (src : SourceDataR) :
    ∀ (l : List Nat) (dp : List DonePart) (e : CopyErr),
      (seqLoop c cf options name uploadId partOffs numParts src dp l).2.2 =
        Except.error e →
      e = CopyErr.cancel ∨ ∃ j, e = CopyErr.js j := by
  intro l
  induction l with
  | nil =>
    intro dp e he
    simp [seqLoop] at he
  | cons p rest ih =>
    intro dp e he
    by_cases hcf : cf = true
    · simp only [seqLoop, hcf, if_true] at he
      simp at he
      exact Or.inl he.symm
    · simp only [Bool.not_eq_true] at hcf
      subst hcf
      simp only [seqLoop, Bool.false_eq_true, if_false] at he
      split at he
      · simp at he
        exact Or.inr ⟨_, he.symm⟩
      · exact ih _ e he

theorem errPair_key (c : Collab) (p : Nat) (x : Nat × JsErr) (h : errPair c p = some x) :
    x.1 = p := by
  cases hcr : c.copyRes p with
  | error e =>
    simp [errPair, hcr] at h
    simp [← h]
  | ok etag => simp [errPair, hcr] at h

theorem find_errPair (c : Collab) (p : Nat) :
    ∀ (l : List Nat), l.Nodup → p ∈ l →
      ((l.filterMap (errPair c)).find? (fun q => q.1 == p)) = errPair c p := by
  intro l
  induction l with
  | nil => intro _ h; cases h
  | cons x rest ih =>
    intro hnd hp
    rw [List.filterMap_cons]
    rcases hx : errPair c x with _ | y
    · rcases List.mem_cons.mp hp with hpx | hpr
      · subst hpx
        rw [hx]
        apply List.find?_eq_none.mpr
        intro y hy
        simp only [List.mem_filterMap] at hy
        obtain ⟨a, ha, hya⟩ := hy
        have hk := errPair_key c a y hya
        have hpnotin : p ∉ rest := (List.nodup_cons.mp hnd).1
        simp only [beq_iff_eq]
        intro hcontra
        rw [hk] at hcontra
        exact hpnotin (hcontra ▸ ha)
      · exact ih (List.nodup_cons.mp hnd).2 hpr
    · have hkey := errPair_key c x y hx
      rcases List.mem_cons.mp hp with hpx | hpr
      · subst hpx
        rw [List.find?_cons_of_pos _ (by simp [hkey])]
        rw [hx]
      · have hne : (y.1 == p) = false := by
          simp only [beq_eq_false_iff_ne, ne_eq]
          rw [hkey]
          intro hc
          subst hc
          exact (List.nodup_cons.mp hnd).1 hpr
        rw [List.find?_cons_of_neg _ (by simp [hne])]
        exact ih (List.nodup_cons.mp hnd).2 hpr

/-- Under a schedule that is a permutation of the submission order, the error
slate the pool reports is exactly the failing jobs' wrapped errors, in
submission order. -/
theorem thunkPool_errors (c : Collab) (options : MpOptions) (name uploadId : String)
    (partOffs : List PartOff) (numParts : Nat) (src : SourceDataR)
    (hpr : ∀ q, c.progressRes q = Except.ok ())
    (todo sched : List Nat) (hsched : sched.Perm todo) (hnd : todo.Nodup)
    (dp : List DonePart) :
    (_thunkPool c false options name uploadId partOffs numParts src dp todo sched).2.2 =
      todo.filterMap (fun p => (errPair c p).map (fun q => q.2)) := by
  simp only [_thunkPool]
  rw [runJobsC_errors c options name uploadId partOffs numParts src hpr sched dp]
  apply List.filterMap_congr
  intro p hp
  rw [find_errPair c p sched (hsched.nodup_iff.mpr hnd) (hsched.mem_iff.mpr hp)]

/-- The first failing part in submission order determines the head of the
error slate. -/
theorem errors_first (c : Collab) :
    ∀ (l : List Nat) (p0 : Nat),
      l.find? (fun p => isErrB (c.copyRes p)) = some p0 →
      ∃ e0 tl, c.copyRes p0 = Except.error e0 ∧
        l.filterMap (fun p => (errPair c p).map (fun q => q.2)) =
          { e0 with partNum := some p0 } :: tl := by
  intro l
  induction l with
  | nil => intro p0 h; simp at h
  | cons x rest ih =>
    intro p0 h
    cases hcr : c.copyRes x with
    | error e =>
      rw [List.find?_cons_of_pos _ (by simp [isErrB, hcr])] at h
      injection h with h
      subst h
      refine ⟨e, List.filterMap (fun p => Option.map (fun q => q.2) (errPair c p)) rest,
        hcr, ?_⟩
      rw [List.filterMap_cons]
      have hx : errPair c x = some (x, { e with partNum := some x }) := by
        simp [errPair, hcr]
      simp [hx]
    | ok etag =>
      rw [List.find?_cons_of_neg _ (by simp [isErrB, hcr])] at h
      obtain ⟨e0, tl, h1, h2⟩ := ih p0 h
      refine ⟨e0, tl, h1, ?_⟩
      rw [List.filterMap_cons]
      have hx : errPair c x = none := by simp [errPair, hcr]
      simp only [hx, Option.map_none']
      exact h2

/-- The `todo` list `_resumeMultipartCopy` computes from a checkpoint and the
source start offset: all part numbers `1..numParts` not in `doneParts`. -/
def resumeTodo (checkpoint : Checkpoint) (startOffset : Nat) : List Nat :=
  let partOffs := _divideMultipartCopyParts checkpoint.copySize checkpoint.partSize startOffset
  ((List.range partOffs.length).map (fun i => i + 1)).filter
    (fun p => !((checkpoint.doneParts.map (fun d => d.number)).contains p))

theorem resumeTodo_nodup (checkpoint : Checkpoint) (startOffset : Nat) :
    (resumeTodo checkpoint startOffset).Nodup := by
  unfold resumeTodo
  exact ((List.nodup_range _).map (fun a b h => by omega)).filter _

/-- The pool run `_resumeMultipartCopy` performs in its parallel branch. -/
def resumePool (c : Collab) (sched : List Nat) (cp : Checkpoint) (src : SourceDataR)
    (options : MpOptions) : List Ev × List DonePart × List JsErr :=
  _thunkPool c false options cp.name cp.uploadId
    (_divideMultipartCopyParts cp.copySize cp.partSize src.startOffset)
    (_divideMultipartCopyParts cp.copySize cp.partSize src.startOffset).length src
    cp.doneParts (resumeTodo cp src.startOffset) sched

/-- `_resumeMultipartCopy` in the parallel branch (not IE10, parallel ≠ 1, cancel
flag clear): run the pool, then fail on the first reported error or finalize. -/
theorem resume_parallel_eq (c : Collab) (sched : List Nat) (st : ClientState)
    (cp : Checkpoint) (src : SourceDataR) (options : MpOptions)
    (hflag : st.cancelFlag = false) (hie : c.isIE10 = false)
    (hpar : jsOr options.parallel 5 ≠ 1) :
    _resumeMultipartCopy c sched st cp src options =
      (match (resumePool c sched cp src options).2.2 with
       | e :: _ =>
         ⟨(resumePool c sched cp src options).1, st,
           { cp with doneParts := (resumePool c sched cp src options).2.1 },
           Except.error (CopyErr.js (rewriteErr e))⟩
       | [] =>
         match c.completeRes (resumePool c sched cp src options).2.1 with
         | Except.error e =>
           ⟨(resumePool c sched cp src options).1 ++
             [Ev.complete cp.name cp.uploadId (resumePool c sched cp src options).2.1], st,
             { cp with doneParts := (resumePool c sched cp src options).2.1 },
             Except.error (CopyErr.js e)⟩
         | Except.ok s =>
           ⟨(resumePool c sched cp src options).1 ++
             [Ev.complete cp.name cp.uploadId (resumePool c sched cp src options).2.1], st,
             { cp with doneParts := (resumePool c sched cp src options).2.1 },
             Except.ok s⟩) := by
  have hbe : (jsOr options.parallel 5 == 1) = false := by
    simp only [beq_eq_false_iff_ne, ne_eq]
    exact hpar
  simp only [_resumeMultipartCopy, hflag, hie, hbe, Bool.false_or, Bool.false_eq_true,
    if_false]
  rfl

theorem resume_parallel_err (c : Collab) (sched : List Nat) (st : ClientState)
    (cp : Checkpoint) (src : SourceDataR) (options : MpOptions)
    (hflag : st.cancelFlag = false) (hie : c.isIE10 = false)
    (hpar : jsOr options.parallel 5 ≠ 1) (e : JsErr) (tl : List JsErr)
    (herr : (resumePool c sched cp src options).2.2 = e :: tl) :
    _resumeMultipartCopy c sched st cp src options =
      ⟨(resumePool c sched cp src options).1, st,
        { cp with doneParts := (resumePool c sched cp src options).2.1 },
        Except.error (CopyErr.js (rewriteErr e))⟩ := by
  rw [resume_parallel_eq c sched st cp src options hflag hie hpar, herr]

theorem resume_parallel_ok (c : Collab) (sched : List Nat) (st : ClientState)
    (cp : Checkpoint) (src : SourceDataR) (options : MpOptions)
    (hflag : st.cancelFlag = false) (hie : c.isIE10 = false)
    (hpar : jsOr options.parallel 5 ≠ 1)
    (herr : (resumePool c sched cp src options).2.2 = []) :
    _resumeMultipartCopy c sched st cp src options =
      (match c.completeRes (resumePool c sched cp src options).2.1 with
       | Except.error e =>
         ⟨(resumePool c sched cp src options).1 ++
           [Ev.complete cp.name cp.uploadId (resumePool c sched cp src options).2.1], st,
           { cp with doneParts := (resumePool c sched cp src options).2.1 },
           Except.error (CopyErr.js e)⟩
       | Except.ok s =>
         ⟨(resumePool c sched cp src options).1 ++
           [Ev.complete cp.name cp.uploadId (resumePool c sched cp src options).2.1], st,
           { cp with doneParts := (resumePool c sched cp src options).2.1 },
           Except.ok s⟩) := by
  rw [resume_parallel_eq c sched st cp src options hflag hie hpar, herr]

theorem resumePool_trace (c : Collab) (sched : List Nat) (cp : Checkpoint)
    (src : SourceDataR) (options : MpOptions) :
    (resumePool c sched cp src options).1 =
      (runJobsC c false options cp.name cp.uploadId
        (_divideMultipartCopyParts cp.copySize cp.partSize src.startOffset)
        (_divideMultipartCopyParts cp.copySize cp.partSize src.startOffset).length src
        cp.doneParts sched).1 := rfl

theorem resumePool_doneParts (c : Collab) (sched : List Nat) (cp : Checkpoint)
    (src : SourceDataR) (options : MpOptions) :
    (resumePool c sched cp src options).2.1 =
      cp.doneParts ++ sched.filterMap (okPush c) := by
  have h : (resumePool c sched cp src options).2.1 =
      (runJobsC c false options cp.name cp.uploadId
        (_divideMultipartCopyParts cp.copySize cp.partSize src.startOffset)
        (_divideMultipartCopyParts cp.copySize cp.partSize src.startOffset).length src
        cp.doneParts sched).2.1 := rfl
  rw [h, runJobsC_doneParts]

/-- C2: in a parallel invocation (not the IE10 fallback, `parallel ≠ 1`) with
the cancel flag clear and a never-failing progress callback, if at least one
part-copy job of the batch fails then: every part of the batch still performs
its part-copy call (the error surfaces only after all submitted jobs ran);
the checkpoint keeps its previous `doneParts` entries plus one entry per part
that succeeded in this batch; and the raised error is the first failing part
in job-submission order, carrying that part's number in `partNum` and in the
rewritten message. -/
theorem resumeMultipartCopy_partial_failure (c : Collab) (sched : List Nat)
    (st : ClientState) (cp : Checkpoint) (src : SourceDataR) (options : MpOptions)
    (hflag : st.cancelFlag = false) (hie : c.isIE10 = false)
    (hpar : jsOr options.parallel 5 ≠ 1)
    (hpr : ∀ q, c.progressRes q = Except.ok ())
    (hsched : sched.Perm (resumeTodo cp src.startOffset))
    (hfail : ∃ p ∈ resumeTodo cp src.startOffset, isErrB (c.copyRes p) = true) :
    (∀ p ∈ resumeTodo cp src.startOffset,
      ∃ ev ∈ (_resumeMultipartCopy c sched st cp src options).trace,
        evPartNo ev = some p) ∧
    (_resumeMultipartCopy c sched st cp src options).checkpoint.doneParts =
      cp.doneParts ++ sched.filterMap (okPush c) ∧
    (∀ d ∈ cp.doneParts,
      d ∈ (_resumeMultipartCopy c sched st cp src options).checkpoint.doneParts) ∧
    (∀ p ∈ resumeTodo cp src.startOffset, ∀ etag, c.copyRes p = Except.ok etag →
      (⟨p, etag⟩ : DonePart) ∈
        (_resumeMultipartCopy c sched st cp src options).checkpoint.doneParts) ∧
    (∃ p0 e0,
      (resumeTodo cp src.startOffset).find? (fun p => isErrB (c.copyRes p)) = some p0 ∧
      c.copyRes p0 = Except.error e0 ∧
      (_resumeMultipartCopy c sched st cp src options).result =
        Except.error (CopyErr.js
          { message := "Failed to copy some parts with error: Error: " ++ e0.message ++
              " part_num: " ++ toString p0
            partNum := some p0 })) := by
  have hfind : ((resumeTodo cp src.startOffset).find?
      (fun p => isErrB (c.copyRes p))).isSome := by
    rw [List.find?_isSome]
    obtain ⟨p, hp, hpe⟩ := hfail
    exact ⟨p, hp, hpe⟩
  obtain ⟨p0, hp0⟩ := Option.isSome_iff_exists.mp hfind
  obtain ⟨e0, tl, he0, herrs⟩ := errors_first c _ p0 hp0
  have hslate : (resumePool c sched cp src options).2.2 =
      (resumeTodo cp src.startOffset).filterMap
        (fun p => (errPair c p).map (fun q => q.2)) := by
    unfold resumePool
    exact thunkPool_errors c options cp.name cp.uploadId _ _ src hpr _ sched hsched
      (resumeTodo_nodup cp src.startOffset) cp.doneParts
  have hpool2 : (resumePool c sched cp src options).2.2 =
      { e0 with partNum := some p0 } :: tl := by rw [hslate]; exact herrs
  have heq := resume_parallel_err c sched st cp src options hflag hie hpar _ _ hpool2
  rw [heq]
  have htr : ∀ p ∈ resumeTodo cp src.startOffset,
      ∃ ev ∈ (resumePool c sched cp src options).1, evPartNo ev = some p := by
    intro p hp
    have hmem : p ∈ sched := hsched.mem_iff.mpr hp
    have h1 := runJobsC_trace_parts c options cp.name cp.uploadId
      (_divideMultipartCopyParts cp.copySize cp.partSize src.startOffset)
      (_divideMultipartCopyParts cp.copySize cp.partSize src.startOffset).length src
      sched cp.doneParts
    have h2 : p ∈ (resumePool c sched cp src options).1.filterMap evPartNo := by
      rw [resumePool_trace, h1]
      exact hmem
    obtain ⟨ev, hev, hevp⟩ := List.mem_filterMap.mp h2
    exact ⟨ev, hev, hevp⟩
  refine ⟨htr, resumePool_doneParts c sched cp src options, ?_, ?_, p0, e0, hp0, he0, ?_⟩
  · intro d hd
    show d ∈ (resumePool c sched cp src options).2.1
    rw [resumePool_doneParts]
    exact List.mem_append_left _ hd
  · intro p hp etag hcr
    show (⟨p, etag⟩ : DonePart) ∈ (resumePool c sched cp src options).2.1
    rw [resumePool_doneParts]
    refine List.mem_append_right _ ?_
    exact List.mem_filterMap.mpr ⟨p, hsched.mem_iff.mpr hp, by simp [okPush, hcr]⟩
  · show Except.error (CopyErr.js (rewriteErr { e0 with partNum := some p0 })) =
      Except.error (CopyErr.js
        { message := "Failed to copy some parts with error: Error: " ++ e0.message ++
            " part_num: " ++ toString p0
          partNum := some p0 })
    simp [rewriteErr, optNumStr]

/-- Witness for C1, applying the theorem at `copySize = 250000`,
`partSize = 100000`, `startOffset = 0`. -/
theorem divideMultipartCopyParts_tiles_witness :
    (0 : Nat) < 250000 ∧ (0 : Nat) < 100000 ∧
    _divideMultipartCopyParts 250000 100000 0 =
      [⟨0, 100000⟩, ⟨100000, 200000⟩, ⟨200000, 250000⟩] :=
  ⟨by decide, by decide,
    (divideMultipartCopyParts_tiles 250000 100000 0 (by decide) (by decide)).2.2.2.2.2.2.2⟩

/-! ## Concrete fixtures for witnesses and counterexamples -/

/-- Fixture: collaborators for which every call succeeds; the head request
reports 250000 bytes, the pluggable sizing function mirrors the caller's
`partSize` with a 100000 default. -/
def collabOk : Collab :=
  { headRes := Except.ok 250000
    initRes := Except.ok "uid"
    copyRes := fun p => Except.ok ("etag" ++ toString p)
    completeRes := fun _ => Except.ok "done"
    progressRes := fun _ => Except.ok ()
    getPartSize := fun _ ps => jsOr ps 100000
    isIE10 := false }

/-- Fixture: like `collabOk` but part 3's copy call fails. -/
def collabFail3 : Collab :=
  { collabOk with
    copyRes := fun p =>
      if p = 3 then Except.error { message := "boom" }
      else Except.ok ("etag" ++ toString p) }

/-- Fixture: a five-part checkpoint with no parts done yet. -/
def cp5 : Checkpoint := ⟨"obj", 500000, 100000, "uid", []⟩

/-- Fixture: the matching resolved source range. -/
def src5 : SourceDataR := ⟨"key", "srcb", 0, 500000⟩

/-- Witness for C2: five parts, part 3 fails while 1, 2, 4, 5 succeed
(completion order `[1, 2, 4, 5, 3]`); the checkpoint records exactly parts
1, 2, 4, 5 and the raised error identifies part 3. -/
theorem resumeMultipartCopy_partial_failure_witness :
    (∀ p ∈ resumeTodo cp5 src5.startOffset,
      ∃ ev ∈ (_resumeMultipartCopy collabFail3 [1, 2, 4, 5, 3]
          ⟨false, "b"⟩ cp5 src5 {}).trace, evPartNo ev = some p) ∧
    (_resumeMultipartCopy collabFail3 [1, 2, 4, 5, 3]
        ⟨false, "b"⟩ cp5 src5 {}).checkpoint.doneParts =
      cp5.doneParts ++ [1, 2, 4, 5, 3].filterMap (okPush collabFail3) ∧
    (∀ d ∈ cp5.doneParts,
      d ∈ (_resumeMultipartCopy collabFail3 [1, 2, 4, 5, 3]
        ⟨false, "b"⟩ cp5 src5 {}).checkpoint.doneParts) ∧
    (∀ p ∈ resumeTodo cp5 src5.startOffset, ∀ etag,
      collabFail3.copyRes p = Except.ok etag →
      (⟨p, etag⟩ : DonePart) ∈ (_resumeMultipartCopy collabFail3 [1, 2, 4, 5, 3]
        ⟨false, "b"⟩ cp5 src5 {}).checkpoint.doneParts) ∧
    (∃ p0 e0,
      (resumeTodo cp5 src5.startOffset).find?
        (fun p => isErrB (collabFail3.copyRes p)) = some p0 ∧
      collabFail3.copyRes p0 = Except.error e0 ∧
      (_resumeMultipartCopy collabFail3 [1, 2, 4, 5, 3]
          ⟨false, "b"⟩ cp5 src5 {}).result =
        Except.error (CopyErr.js
          { message := "Failed to copy some parts with error: Error: " ++ e0.message ++
              " part_num: " ++ toString p0
            partNum := some p0 })) :=
  resumeMultipartCopy_partial_failure collabFail3 [1, 2, 4, 5, 3] ⟨false, "b"⟩ cp5 src5 {}
    rfl rfl (by decide) (fun q => rfl) (by decide) (by decide)

/-! ## Claim C5: finalization -/

/-- `errPair` is `none` exactly on non-failing parts. -/
theorem errPair_none (c : Collab) (p : Nat) (h : isErrB (c.copyRes p) = false) :
    errPair c p = none := by
  cases hcr : c.copyRes p with
  | error e => rw [hcr] at h; simp [isErrB] at h
  | ok etag => simp [errPair, hcr]

/-- C5 (amended): when every part of the batch succeeds (parallel branch,
cancel flag clear, progress never failing), the orchestrator calls the
external complete-upload operation with the final `doneParts` — the previous
entries followed by this batch's entries in completion (append) order, which
need not be ascending — and the result of that call is the overall return
value of the invocation. -/
theorem resumeMultipartCopy_finalize (c : Collab) (sched : List Nat)
    (st : ClientState) (cp : Checkpoint) (src : SourceDataR) (options : MpOptions)
    (hflag : st.cancelFlag = false) (hie : c.isIE10 = false)
    (hpar : jsOr options.parallel 5 ≠ 1)
    (hpr : ∀ q, c.progressRes q = Except.ok ())
    (hsched : sched.Perm (resumeTodo cp src.startOffset))
    (hok : ∀ p ∈ resumeTodo cp src.startOffset, isErrB (c.copyRes p) = false) :
    (_resumeMultipartCopy c sched st cp src options).trace.getLast? =
      some (Ev.complete cp.name cp.uploadId
        (cp.doneParts ++ sched.filterMap (okPush c))) ∧
    (_resumeMultipartCopy c sched st cp src options).checkpoint.doneParts =
      cp.doneParts ++ sched.filterMap (okPush c) ∧
    (∀ s', c.completeRes (cp.doneParts ++ sched.filterMap (okPush c)) = Except.ok s' →
      (_resumeMultipartCopy c sched st cp src options).result = Except.ok s') ∧
    (∀ e, c.completeRes (cp.doneParts ++ sched.filterMap (okPush c)) = Except.error e →
      (_resumeMultipartCopy c sched st cp src options).result =
        Except.error (CopyErr.js e)) := by
  have hslate : (resumePool c sched cp src options).2.2 =
      (resumeTodo cp src.startOffset).filterMap
        (fun p => (errPair c p).map (fun q => q.2)) := by
    unfold resumePool
    exact thunkPool_errors c options cp.name cp.uploadId _ _ src hpr _ sched hsched
      (resumeTodo_nodup cp src.startOffset) cp.doneParts
  have hnil : (resumePool c sched cp src options).2.2 = [] := by
    rw [hslate]
    apply List.filterMap_eq_nil_iff.mpr
    intro p hp
    rw [errPair_none c p (hok p hp)]
    rfl
  have heq := resume_parallel_ok c sched st cp src options hflag hie hpar hnil
  rw [resumePool_doneParts] at heq
  rw [heq]
  cases hcomp : c.completeRes (cp.doneParts ++ sched.filterMap (okPush c)) with
  | error e =>
    refine ⟨?_, rfl, ?_, ?_⟩
    · show ((resumePool c sched cp src options).1 ++
        [Ev.complete cp.name cp.uploadId
          (cp.doneParts ++ sched.filterMap (okPush c))]).getLast? = _
      rw [List.getLast?_append_cons]
      rfl
    · intro s' hs'
      cases hs'
    · intro e2 he2
      injection he2 with he2
      show Except.error (CopyErr.js e) = Except.error (CopyErr.js e2)
      rw [he2]
  | ok s =>
    refine ⟨?_, rfl, ?_, ?_⟩
    · show ((resumePool c sched cp src options).1 ++
        [Ev.complete cp.name cp.uploadId
          (cp.doneParts ++ sched.filterMap (okPush c))]).getLast? = _
      rw [List.getLast?_append_cons]
      rfl
    · intro s' hs'
      injection hs' with hs'
      show Except.ok s = Except.ok s'
      rw [hs']
    · intro e2 he2
      cases he2

/-- Fixture: a three-part checkpoint with no parts done yet. -/
def cp3 : Checkpoint := ⟨"obj", 250000, 100000, "uid", []⟩

/-- Fixture: the matching resolved source range. -/
def src3 : SourceDataR := ⟨"key", "srcb", 0, 250000⟩

/-- Counterexample to C5 as stated: under the parallel completion order
`[2, 1, 3]` the orchestrator passes `doneParts` to the complete-upload
operation in append order `2, 1, 3`, which is not ascending — no sorting
happens at this call site. -/
theorem resumeMultipartCopy_complete_unsorted :
    (_resumeMultipartCopy collabOk [2, 1, 3] ⟨false, "b"⟩ cp3 src3 {}).trace.getLast? =
      some (Ev.complete "obj" "uid"
        ([⟨2, "etag2"⟩, ⟨1, "etag1"⟩, ⟨3, "etag3"⟩] : List DonePart)) ∧
    ¬ List.Pairwise (fun a b => a.number ≤ b.number)
        ([⟨2, "etag2"⟩, ⟨1, "etag1"⟩, ⟨3, "etag3"⟩] : List DonePart) :=
  ⟨by decide, by decide⟩

/-- Witness for C5 (amended), applying the theorem at the concrete three-part
run with completion order `[2, 1, 3]`. -/
theorem resumeMultipartCopy_finalize_witness :
    (_resumeMultipartCopy collabOk [2, 1, 3] ⟨false, "b"⟩ cp3 src3 {}).trace.getLast? =
      some (Ev.complete cp3.name cp3.uploadId
        (cp3.doneParts ++ [2, 1, 3].filterMap (okPush collabOk))) ∧
    (_resumeMultipartCopy collabOk [2, 1, 3] ⟨false, "b"⟩ cp3 src3 {}).checkpoint.doneParts =
      cp3.doneParts ++ [2, 1, 3].filterMap (okPush collabOk) ∧
    (∀ s', collabOk.completeRes (cp3.doneParts ++ [2, 1, 3].filterMap (okPush collabOk)) =
        Except.ok s' →
      (_resumeMultipartCopy collabOk [2, 1, 3] ⟨false, "b"⟩ cp3 src3 {}).result =
        Except.ok s') ∧
    (∀ e, collabOk.completeRes (cp3.doneParts ++ [2, 1, 3].filterMap (okPush collabOk)) =
        Except.error e →
      (_resumeMultipartCopy collabOk [2, 1, 3] ⟨false, "b"⟩ cp3 src3 {}).result =
        Except.error (CopyErr.js e)) :=
  resumeMultipartCopy_finalize collabOk [2, 1, 3] ⟨false, "b"⟩ cp3 src3 {}
    rfl rfl (by decide) (fun q => rfl) (by decide) (by decide)

/-! ## Claims C3 and C4: cancellation reset and validation locality -/

/-- `_resumeMultipartCopy` never produces a validation error: those can only
arise from the two local throws in the fresh path of `multipartUploadCopy`. -/
theorem resume_result_ne_validation (c : Collab) (sched : List Nat) (st : ClientState)
    (cp : Checkpoint) (src : SourceDataR) (options : MpOptions) (m : String) :
    (_resumeMultipartCopy c sched st cp src options).result ≠
      Except.error (CopyErr.validation m) := by
  simp only [_resumeMultipartCopy]
  split
  · intro hc
    injection hc with hc
    simp at hc
  · split
    · -- sequential fallback branch
      split
      · next e heq =>
        intro hc
        injection hc with hc
        subst hc
        rcases seqLoop_error_shape c st.cancelFlag options cp.name cp.uploadId _ _ src
          _ _ _ heq with h | ⟨j, h⟩ <;> simp at h
      · split
        · intro hc
          injection hc with hc
          simp at hc
        · intro hc
          exact Except.noConfusion hc
    · -- parallel branch
      repeat' split
      all_goals intro hc
      all_goals
        first
          | exact Except.noConfusion hc
          | (injection hc with hc; simp at hc)

/-- A validation failure of the fresh tail happens before the initiate call:
the tail performs no call at all and builds no checkpoint. -/
theorem fresh_validation (c : Collab) (sched : List Nat) (st : ClientState)
    (name : String) (src : SourceDataR) (options : MpOptions) (m : String)
    (h : (multipartUploadCopyFresh c sched st name src options).result =
      Except.error (CopyErr.validation m)) :
    (multipartUploadCopyFresh c sched st name src options).trace = [] ∧
    (multipartUploadCopyFresh c sched st name src options).checkpoint = none := by
  by_cases h1 : src.endOffset - src.startOffset < 100 * 1024
  · constructor <;> simp [multipartUploadCopyFresh, h1]
  · by_cases h2 : badPartSizeOpt options.partSize (100 * 1024) = true
    · constructor <;> simp [multipartUploadCopyFresh, h1, h2]
    · exfalso
      simp only [multipartUploadCopyFresh] at h
      rw [if_neg h1] at h
      rw [if_neg h2] at h
      cases hi : c.initRes with
      | error e => simp [hi] at h
      | ok uploadId =>
        simp only [hi] at h
        by_cases hpg : options.hasProgress = true
        · rw [if_pos hpg] at h
          cases hq : c.progressRes 0 with
          | error e => simp [hq] at h
          | ok u =>
            simp only [hq] at h
            exact resume_result_ne_validation c sched st _ src options m h
        · rw [if_neg hpg] at h
          exact resume_result_ne_validation c sched st _ src options m h

/-- C4 (amended): whenever an invocation fails with a ValidationError, the
only remote call it has performed is the metadata head request, which
precedes validation — the upload is never initiated, no part-copy and no
completion call happens, and no checkpoint (partial upload state) exists. -/
theorem multipartUploadCopy_validation_local (c : Collab) (sched : List Nat)
    (st0 : ClientState) (name : String) (sourceData : SourceData) (options : MpOptions)
    (m : String)
    (h : (multipartUploadCopy c sched st0 name sourceData options).result =
      Except.error (CopyErr.validation m)) :
    (multipartUploadCopy c sched st0 name sourceData options).trace =
      [Ev.head sourceData.sourceBucketName sourceData.sourceKey] ∧
    (multipartUploadCopy c sched st0 name sourceData options).checkpoint = none := by
  cases hh : c.headRes with
  | error e => simp [multipartUploadCopy, multipartUploadCopyCont, _getObjectMeta, hh] at h
  | ok n =>
    simp only [multipartUploadCopy, multipartUploadCopyCont, _getObjectMeta, hh] at h ⊢
    cases hcp : options.checkpoint with
    | some cpx =>
      simp only [hcp] at h ⊢
      by_cases hu : cpx.uploadId = ""
      · rw [if_neg (fun hc => hc hu)] at h ⊢
        obtain ⟨ht, hcpt⟩ := fresh_validation c sched _ name _ options m h
        rw [ht, hcpt]
        exact ⟨rfl, rfl⟩
      · rw [if_pos hu] at h
        exact absurd h (resume_result_ne_validation c sched _ cpx _ options m)
    | none =>
      simp only [hcp] at h ⊢
      obtain ⟨ht, hcpt⟩ := fresh_validation c sched _ name _ options m h
      rw [ht, hcpt]
      exact ⟨rfl, rfl⟩

/-- Counterexample to C4 as stated: a fresh invocation whose `copySize`
(1000 bytes) fails validation still performs a remote operation before the
ValidationError is raised — the metadata head request is in its trace, so the
failing invocation is not fully local. -/
theorem multipartUploadCopy_validation_after_head :
    (multipartUploadCopy collabOk [1] ⟨false, "b"⟩ "obj"
        ⟨"key", "srcb", none, some 1000⟩ {}).result =
      Except.error (CopyErr.validation "copySize must not be smaller than 102400") ∧
    (multipartUploadCopy collabOk [1] ⟨false, "b"⟩ "obj"
        ⟨"key", "srcb", none, some 1000⟩ {}).trace = [Ev.head "srcb" "key"] ∧
    (multipartUploadCopy collabOk [1] ⟨false, "b"⟩ "obj"
        ⟨"key", "srcb", none, some 1000⟩ {}).trace ≠ [] :=
  ⟨by decide, by decide, by decide⟩

/-- Witness for C4 (amended), applying the theorem at the concrete rejected
invocation. -/
theorem multipartUploadCopy_validation_local_witness :
    (multipartUploadCopy collabOk [1] ⟨false, "b"⟩ "obj"
        ⟨"key", "srcb", none, some 2000⟩ {}).trace = [Ev.head "srcb" "key"] ∧
    (multipartUploadCopy collabOk [1] ⟨false, "b"⟩ "obj"
        ⟨"key", "srcb", none, some 2000⟩ {}).checkpoint = none :=
  multipartUploadCopy_validation_local collabOk [1] ⟨false, "b"⟩ "obj"
    ⟨"key", "srcb", none, some 2000⟩ {} "copySize must not be smaller than 102400"
    (by decide)

/-- C3 (amended): `multipartUploadCopy` resets the cancel flag at entry, so a
flag set before the invocation has no effect — the run is identical to one
started with the flag clear.  The cancellation check happens at the entry of
`_resumeMultipartCopy`: if the flag is set there (i.e. was set after the
reset), the run makes zero part-copy calls and raises the cancel event; and a
part job that observes the flag set short-circuits without any call. -/
theorem multipartUploadCopy_cancel_reset (c : Collab) :
    (∀ (sched : List Nat) (st : ClientState) (name : String) (sourceData : SourceData)
        (options : MpOptions),
      multipartUploadCopy c sched st name sourceData options =
        multipartUploadCopy c sched ⟨false, st.bucket⟩ name sourceData options) ∧
    (∀ (options : MpOptions) (name uploadId : String) (partOffs : List PartOff)
        (numParts : Nat) (src : SourceDataR) (doneParts : List DonePart) (partNo : Nat),
      uploadPartJob c true options name uploadId partOffs numParts src doneParts partNo =
        ([], doneParts, Except.ok ())) ∧
    (∀ (sched : List Nat) (st : ClientState) (cp : Checkpoint) (src : SourceDataR)
        (options : MpOptions), st.cancelFlag = true →
      _resumeMultipartCopy c sched st cp src options =
        ⟨[], st, cp, Except.error CopyErr.cancel⟩) := by
  refine ⟨fun sched st name sourceData options => rfl,
    fun options name uploadId partOffs numParts src doneParts partNo => rfl,
    fun sched st cp src options hflag => ?_⟩
  simp [_resumeMultipartCopy, hflag]

/-- Counterexample to C3 as stated: with the cancel flag set before the
invocation, the run still performs part-copy calls and returns successfully
instead of raising the cancellation signal, because the flag is reset at
entry. -/
theorem multipartUploadCopy_cancel_preset_ignored :
    (multipartUploadCopy collabOk [1, 2, 3] ⟨true, "b"⟩ "obj"
        ⟨"key", "srcb", none, none⟩ {}).result = Except.ok "done" ∧
    (∃ ev ∈ (multipartUploadCopy collabOk [1, 2, 3] ⟨true, "b"⟩ "obj"
        ⟨"key", "srcb", none, none⟩ {}).trace, evPartNo ev = some 1) ∧
    (multipartUploadCopy collabOk [1, 2, 3] ⟨true, "b"⟩ "obj"
        ⟨"key", "srcb", none, none⟩ {}).result ≠ Except.error CopyErr.cancel :=
  ⟨by decide, by decide, by decide⟩

/-- Witness for C3 (amended), applying the theorem at concrete inputs. -/
theorem multipartUploadCopy_cancel_reset_witness :
    multipartUploadCopy collabOk [1, 2, 3] ⟨true, "b"⟩ "obj"
        ⟨"key", "srcb", none, none⟩ {} =
      multipartUploadCopy collabOk [1, 2, 3] ⟨false, "b"⟩ "obj"
        ⟨"key", "srcb", none, none⟩ {} ∧
    uploadPartJob collabOk true {} "obj" "uid" [] 0 src3 [] 1 =
      ([], [], Except.ok ()) ∧
    _resumeMultipartCopy collabOk [1, 2, 3] ⟨true, "b"⟩ cp3 src3 {} =
      ⟨[], ⟨true, "b"⟩, cp3, Except.error CopyErr.cancel⟩ :=
  ⟨(multipartUploadCopy_cancel_reset collabOk).1 [1, 2, 3] ⟨true, "b"⟩ "obj"
      ⟨"key", "srcb", none, none⟩ {},
   (multipartUploadCopy_cancel_reset collabOk).2.1 {} "obj" "uid" [] 0 src3 [] 1,
   (multipartUploadCopy_cancel_reset collabOk).2.2 [1, 2, 3] ⟨true, "b"⟩ cp3 src3 {} rfl⟩

/-! ## Claim C6: minimum-size validation boundary -/

/-- C6: a fresh (non-resume) invocation computes
`copySize = endOffset − startOffset` (offsets defaulted from the head
request) and rejects `copySize < MIN_PART_SIZE = 102400` with a
ValidationError, performing no initiate call (its trace stays the lone head
request); a caller `partSize` that is truthy and `< 102400` is likewise
rejected; otherwise no ValidationError can occur and the initiate-upload
call is made. -/
theorem multipartUploadCopy_min_size (c : Collab) (sched : List Nat) (st0 : ClientState)
    (name : String) (sourceData : SourceData) (options : MpOptions) (n : Nat)
    (hh : c.headRes = Except.ok n) (hcp : options.checkpoint = none) :
    (jsOr sourceData.endOffset n - jsOr sourceData.startOffset 0 < 100 * 1024 →
      (multipartUploadCopy c sched st0 name sourceData options).result =
        Except.error (CopyErr.validation "copySize must not be smaller than 102400") ∧
      (multipartUploadCopy c sched st0 name sourceData options).trace =
        [Ev.head sourceData.sourceBucketName sourceData.sourceKey]) ∧
    (¬(jsOr sourceData.endOffset n - jsOr sourceData.startOffset 0 < 100 * 1024) →
      badPartSizeOpt options.partSize (100 * 1024) = true →
      (multipartUploadCopy c sched st0 name sourceData options).result =
        Except.error (CopyErr.validation "partSize must not be smaller than 102400") ∧
      (multipartUploadCopy c sched st0 name sourceData options).trace =
        [Ev.head sourceData.sourceBucketName sourceData.sourceKey]) ∧
    (¬(jsOr sourceData.endOffset n - jsOr sourceData.startOffset 0 < 100 * 1024) →
      badPartSizeOpt options.partSize (100 * 1024) = false →
      (∀ m, (multipartUploadCopy c sched st0 name sourceData options).result ≠
        Except.error (CopyErr.validation m)) ∧
      Ev.initUpload name ∈ (multipartUploadCopy c sched st0 name sourceData options).trace) := by
  refine ⟨fun h1 => ⟨?_, ?_⟩, fun h1 h2 => ⟨?_, ?_⟩, fun h1 h2 => ⟨?_, ?_⟩⟩
  · simp only [multipartUploadCopy, multipartUploadCopyCont, _getObjectMeta, hh, hcp, multipartUploadCopyFresh]
    rw [if_pos h1]
    rfl
  · simp only [multipartUploadCopy, multipartUploadCopyCont, _getObjectMeta, hh, hcp, multipartUploadCopyFresh]
    rw [if_pos h1]
    rfl
  · simp only [multipartUploadCopy, multipartUploadCopyCont, _getObjectMeta, hh, hcp, multipartUploadCopyFresh]
    rw [if_neg h1, if_pos h2]
    rfl
  · simp only [multipartUploadCopy, multipartUploadCopyCont, _getObjectMeta, hh, hcp, multipartUploadCopyFresh]
    rw [if_neg h1, if_pos h2]
    rfl
  · intro m
    cases hi : c.initRes with
    | error e =>
      simp [multipartUploadCopy, multipartUploadCopyCont, _getObjectMeta, hh, hcp, multipartUploadCopyFresh, h1, h2, hi]
    | ok uploadId =>
      by_cases hpg : options.hasProgress = true
      · cases hq : c.progressRes 0 with
        | error e =>
          simp [multipartUploadCopy, multipartUploadCopyCont, _getObjectMeta, hh, hcp, multipartUploadCopyFresh,
            h1, h2, hi, hpg, hq]
        | ok u =>
          simp only [multipartUploadCopy, multipartUploadCopyCont, _getObjectMeta, hh, hcp, multipartUploadCopyFresh,
            h1, h2, hi, hpg, hq, Bool.false_eq_true, if_false, if_true, not_false_eq_true,
            if_neg h1]
          exact resume_result_ne_validation c sched _ _ _ options m
      · simp only [Bool.not_eq_true] at hpg
        simp only [multipartUploadCopy, multipartUploadCopyCont, _getObjectMeta, hh, hcp, multipartUploadCopyFresh,
          h1, h2, hi, hpg, Bool.false_eq_true, if_false, if_true, not_false_eq_true,
          if_neg h1]
        exact resume_result_ne_validation c sched _ _ _ options m
  · cases hi : c.initRes with
    | error e =>
      simp [multipartUploadCopy, multipartUploadCopyCont, _getObjectMeta, hh, hcp, multipartUploadCopyFresh, h1, h2, hi]
    | ok uploadId =>
      by_cases hpg : options.hasProgress = true
      · cases hq : c.progressRes 0 with
        | error e =>
          simp [multipartUploadCopy, multipartUploadCopyCont, _getObjectMeta, hh, hcp, multipartUploadCopyFresh,
            h1, h2, hi, hpg, hq]
        | ok u =>
          simp [multipartUploadCopy, multipartUploadCopyCont, _getObjectMeta, hh, hcp, multipartUploadCopyFresh,
            h1, h2, hi, hpg, hq]
      · simp only [Bool.not_eq_true] at hpg
        simp [multipartUploadCopy, multipartUploadCopyCont, _getObjectMeta, hh, hcp, multipartUploadCopyFresh,
          h1, h2, hi, hpg]

/-- Witness for C6, applying the theorem at the boundary:
`copySize = 102399` is rejected with the ValidationError before any initiate
call, `copySize = 102400` is accepted (no ValidationError; initiate-upload is
called). -/
theorem multipartUploadCopy_min_size_witness :
    ((multipartUploadCopy collabOk [1] ⟨false, "b"⟩ "obj"
        ⟨"key", "srcb", none, some 102399⟩ {}).result =
      Except.error (CopyErr.validation "copySize must not be smaller than 102400") ∧
     (multipartUploadCopy collabOk [1] ⟨false, "b"⟩ "obj"
        ⟨"key", "srcb", none, some 102399⟩ {}).trace = [Ev.head "srcb" "key"]) ∧
    ((∀ m, (multipartUploadCopy collabOk [1] ⟨false, "b"⟩ "obj"
        ⟨"key", "srcb", none, some 102400⟩ {}).result ≠
          Except.error (CopyErr.validation m)) ∧
     Ev.initUpload "obj" ∈ (multipartUploadCopy collabOk [1] ⟨false, "b"⟩ "obj"
        ⟨"key", "srcb", none, some 102400⟩ {}).trace) :=
  ⟨(multipartUploadCopy_min_size collabOk [1] ⟨false, "b"⟩ "obj"
      ⟨"key", "srcb", none, some 102399⟩ {} 250000 rfl rfl).1 (by decide),
   (multipartUploadCopy_min_size collabOk [1] ⟨false, "b"⟩ "obj"
      ⟨"key", "srcb", none, some 102400⟩ {} 250000 rfl rfl).2.2 (by decide) (by decide)⟩

/-! ## Claim C7: progress reporting -/

/-- Every progress ratio reported by `_resumeMultipartCopy` on a checkpoint
with no done parts lies in `[0, 1]` (the schedule cannot run more jobs than
there are parts). -/
theorem resume_progress_bound (c : Collab) (sched : List Nat) (st : ClientState)
    (cp : Checkpoint) (src : SourceDataR) (options : MpOptions)
    (hdp : cp.doneParts = [])
    (hsl : sched.length ≤
      (_divideMultipartCopyParts cp.copySize cp.partSize src.startOffset).length) :
    ∀ ev ∈ (_resumeMultipartCopy c sched st cp src options).trace,
      ∀ q dps, ev = Ev.progress q dps → 0 ≤ q ∧ q ≤ 1 := by
  simp only [_resumeMultipartCopy]
  split
  · simp
  · next hfl =>
    rw [Bool.not_eq_true] at hfl
    rw [hfl, hdp]
    have htodo : (((List.range (_divideMultipartCopyParts cp.copySize cp.partSize
        src.startOffset).length).map (fun i => i + 1)).filter
        (fun p => !((([] : List DonePart).map (fun d => d.number)).contains p))) =
        ((List.range (_divideMultipartCopyParts cp.copySize cp.partSize
          src.startOffset).length).map (fun i => i + 1)) := by
      simp
    rw [htodo]
    have hlenTL : (((List.range (_divideMultipartCopyParts cp.copySize cp.partSize
        src.startOffset).length).map (fun i => i + 1))).length =
        (_divideMultipartCopyParts cp.copySize cp.partSize src.startOffset).length := by
      simp
    have hseq := seqLoop_progress_bound c options cp.name cp.uploadId
      (_divideMultipartCopyParts cp.copySize cp.partSize src.startOffset)
      (_divideMultipartCopyParts cp.copySize cp.partSize src.startOffset).length src
      (((List.range (_divideMultipartCopyParts cp.copySize cp.partSize
        src.startOffset).length).map (fun i => i + 1))) []
      (by rw [hlenTL]; simp)
    have hrun := runJobsC_progress_bound c options cp.name cp.uploadId
      (_divideMultipartCopyParts cp.copySize cp.partSize src.startOffset)
      (_divideMultipartCopyParts cp.copySize cp.partSize src.startOffset).length src
      sched [] (by simpa using hsl)
    have hpool : ∀ ev ∈ (_thunkPool c false options cp.name cp.uploadId
        (_divideMultipartCopyParts cp.copySize cp.partSize src.startOffset)
        (_divideMultipartCopyParts cp.copySize cp.partSize src.startOffset).length src []
        (((List.range (_divideMultipartCopyParts cp.copySize cp.partSize
          src.startOffset).length).map (fun i => i + 1))) sched).1,
        ∀ q dps, ev = Ev.progress q dps → 0 ≤ q ∧ q ≤ 1 := by
      intro ev hev q dps hq
      exact hrun ev hev q dps hq
    repeat' split
    all_goals intro ev hev q dps hq
    all_goals subst hq
    all_goals
      first
        | exact hseq _ hev _ dps rfl
        | exact hpool _ hev _ dps rfl
        | (rcases List.mem_append.mp hev with hev2 | hev2 <;>
            first
              | exact hseq _ hev2 _ dps rfl
              | exact hpool _ hev2 _ dps rfl
              | simp at hev2)

/-- C7: (1) after an individual part-copy succeeds (with progress supplied),
`doneParts` gains exactly one appended `{number, etag}` entry and the
progress callback is then invoked with ratio `doneParts.length / numParts`
and the updated checkpoint contents; (2) a fresh start additionally reports
ratio 0 right after initiating the upload; (3) in a fresh invocation every
reported ratio lies in `[0, 1]`. -/
theorem multipartUploadCopy_progress (c : Collab) :
    (∀ (options : MpOptions) (name uploadId : String) (partOffs : List PartOff)
        (numParts : Nat) (src : SourceDataR) (doneParts : List DonePart)
        (partNo : Nat) (etag : String),
      c.copyRes partNo = Except.ok etag → options.hasProgress = true →
      (uploadPartJob c false options name uploadId partOffs numParts src
          doneParts partNo).1 =
        [Ev.partCopy name uploadId partNo (partRangeStr partOffs partNo)
          src.sourceBucketName src.sourceKey,
         Ev.progress ((doneParts.length + 1 : ℚ) / (numParts : ℚ))
          (doneParts ++ [⟨partNo, etag⟩])] ∧
      (uploadPartJob c false options name uploadId partOffs numParts src
          doneParts partNo).2.1 = doneParts ++ [⟨partNo, etag⟩]) ∧
    (∀ (sched : List Nat) (st0 : ClientState) (name : String)
        (sourceData : SourceData) (options : MpOptions) (n : Nat) (uploadId : String),
      c.headRes = Except.ok n → options.checkpoint = none →
      ¬(jsOr sourceData.endOffset n - jsOr sourceData.startOffset 0 < 100 * 1024) →
      badPartSizeOpt options.partSize (100 * 1024) = false →
      c.initRes = Except.ok uploadId → options.hasProgress = true →
      Ev.progress 0 [] ∈ (multipartUploadCopy c sched st0 name sourceData options).trace) ∧
    (∀ (sched : List Nat) (st0 : ClientState) (name : String)
        (sourceData : SourceData) (options : MpOptions),
      options.checkpoint = none →
      (∀ n, c.headRes = Except.ok n →
        sched.length ≤ (_divideMultipartCopyParts
          (jsOr sourceData.endOffset n - jsOr sourceData.startOffset 0)
          (c.getPartSize (jsOr sourceData.endOffset n - jsOr sourceData.startOffset 0)
            options.partSize)
          (jsOr sourceData.startOffset 0)).length) →
      ∀ ev ∈ (multipartUploadCopy c sched st0 name sourceData options).trace,
        ∀ q dps, ev = Ev.progress q dps → 0 ≤ q ∧ q ≤ 1) := by
  refine ⟨?_, ?_, ?_⟩
  · intro options name uploadId partOffs numParts src dp p etag hcr hpg
    refine ⟨uploadPartJob_trace_okprog c options name uploadId partOffs numParts src
      dp p etag hcr hpg, ?_⟩
    rw [uploadPartJob_doneParts]
    simp [okPush, hcr]
  · intro sched st0 name sourceData options n uploadId hh hcp h1 h2 hi hpg
    cases hq : c.progressRes 0 with
    | error e =>
      simp [multipartUploadCopy, multipartUploadCopyCont, _getObjectMeta, hh, hcp, multipartUploadCopyFresh,
        h1, h2, hi, hpg, hq]
    | ok u =>
      simp [multipartUploadCopy, multipartUploadCopyCont, _getObjectMeta, hh, hcp, multipartUploadCopyFresh,
        h1, h2, hi, hpg, hq]
  · intro sched st0 name sourceData options hcp hbound ev hev q dps hq
    cases hh : c.headRes with
    | error e =>
      simp [multipartUploadCopy, multipartUploadCopyCont, _getObjectMeta, hh, hcp] at hev
      subst hev
      exact absurd hq (by simp)
    | ok n =>
      by_cases h1 : jsOr sourceData.endOffset n - jsOr sourceData.startOffset 0 < 100 * 1024
      · simp [multipartUploadCopy, multipartUploadCopyCont, _getObjectMeta, hh, hcp, multipartUploadCopyFresh,
          h1] at hev
        subst hev
        exact absurd hq (by simp)
      · by_cases h2 : badPartSizeOpt options.partSize (100 * 1024) = true
        · simp [multipartUploadCopy, multipartUploadCopyCont, _getObjectMeta, hh, hcp, multipartUploadCopyFresh,
            h1, h2] at hev
          subst hev
          exact absurd hq (by simp)
        · have h2' : badPartSizeOpt options.partSize (100 * 1024) = false :=
            Bool.eq_false_iff.mpr h2
          have hres := resume_progress_bound c sched
            ⟨false, st0.bucket⟩
            ⟨name, jsOr sourceData.endOffset n - jsOr sourceData.startOffset 0,
              c.getPartSize (jsOr sourceData.endOffset n - jsOr sourceData.startOffset 0)
                options.partSize, "", []⟩
            ⟨sourceData.sourceKey, sourceData.sourceBucketName,
              jsOr sourceData.startOffset 0, jsOr sourceData.endOffset n⟩
            options rfl (hbound n hh)
          cases hi : c.initRes with
          | error e =>
            simp [multipartUploadCopy, multipartUploadCopyCont, _getObjectMeta, hh, hcp, multipartUploadCopyFresh,
              h1, h2', hi] at hev
            rcases hev with hev | hev <;> (subst hev; exact absurd hq (by simp))
          | ok uploadId =>
            by_cases hpg : options.hasProgress = true
            · cases hqq : c.progressRes 0 with
              | error e2 =>
                simp [multipartUploadCopy, multipartUploadCopyCont, _getObjectMeta, hh, hcp,
                  multipartUploadCopyFresh, h1, h2', hi, hpg, hqq] at hev
                rcases hev with hev | hev | hev
                · subst hev
                  exact absurd hq (by simp)
                · subst hev
                  exact absurd hq (by simp)
                · subst hev
                  injection hq with hq1 hq2
                  rw [← hq1]
                  exact ⟨le_refl 0, zero_le_one⟩
              | ok u =>
                have hres2 := resume_progress_bound c sched
                  ⟨false, st0.bucket⟩
                  ⟨name, jsOr sourceData.endOffset n - jsOr sourceData.startOffset 0,
                    c.getPartSize (jsOr sourceData.endOffset n -
                      jsOr sourceData.startOffset 0) options.partSize, uploadId, []⟩
                  ⟨sourceData.sourceKey, sourceData.sourceBucketName,
                    jsOr sourceData.startOffset 0, jsOr sourceData.endOffset n⟩
                  options rfl (hbound n hh)
                simp [multipartUploadCopy, multipartUploadCopyCont, _getObjectMeta, hh, hcp,
                  multipartUploadCopyFresh, h1, h2', hi, hpg, hqq] at hev
                rcases hev with hev | hev | hev | hev
                · subst hev
                  exact absurd hq (by simp)
                · subst hev
                  exact absurd hq (by simp)
                · subst hev
                  injection hq with hq1 hq2
                  rw [← hq1]
                  exact ⟨le_refl 0, zero_le_one⟩
                · exact hres2 ev hev q dps hq
            · have hpg' : options.hasProgress = false := Bool.eq_false_iff.mpr hpg
              have hres2 := resume_progress_bound c sched
                ⟨false, st0.bucket⟩
                ⟨name, jsOr sourceData.endOffset n - jsOr sourceData.startOffset 0,
                  c.getPartSize (jsOr sourceData.endOffset n -
                    jsOr sourceData.startOffset 0) options.partSize, uploadId, []⟩
                ⟨sourceData.sourceKey, sourceData.sourceBucketName,
                  jsOr sourceData.startOffset 0, jsOr sourceData.endOffset n⟩
                options rfl (hbound n hh)
              simp [multipartUploadCopy, multipartUploadCopyCont, _getObjectMeta, hh, hcp,
                multipartUploadCopyFresh, h1, h2', hi, hpg'] at hev
              rcases hev with hev | hev | hev
              · subst hev
                exact absurd hq (by simp)
              · subst hev
                exact absurd hq (by simp)
              · exact hres2 ev hev q dps hq

/-- Witness for C7, applying the theorem at a concrete fresh three-part run
with the progress callback supplied. -/
theorem multipartUploadCopy_progress_witness :
    ((uploadPartJob collabOk false { hasProgress := true } "obj" "uid"
        (_divideMultipartCopyParts 250000 100000 0) 3 src3 [] 1).1 =
      [Ev.partCopy "obj" "uid" 1
        (partRangeStr (_divideMultipartCopyParts 250000 100000 0) 1)
        src3.sourceBucketName src3.sourceKey,
       Ev.progress ((([] : List DonePart).length + 1 : ℚ) / ((3 : Nat) : ℚ))
        ([] ++ [⟨1, "etag1"⟩])] ∧
     (uploadPartJob collabOk false { hasProgress := true } "obj" "uid"
        (_divideMultipartCopyParts 250000 100000 0) 3 src3 [] 1).2.1 =
      [] ++ [⟨1, "etag1"⟩]) ∧
    Ev.progress 0 [] ∈ (multipartUploadCopy collabOk [1, 2, 3] ⟨false, "b"⟩ "obj"
      ⟨"key", "srcb", none, none⟩ { hasProgress := true }).trace ∧
    (∀ ev ∈ (multipartUploadCopy collabOk [1, 2, 3] ⟨false, "b"⟩ "obj"
        ⟨"key", "srcb", none, none⟩ { hasProgress := true }).trace,
      ∀ q dps, ev = Ev.progress q dps → 0 ≤ q ∧ q ≤ 1) :=
  ⟨(multipartUploadCopy_progress collabOk).1 { hasProgress := true } "obj" "uid"
      (_divideMultipartCopyParts 250000 100000 0) 3 src3 [] 1 "etag1" rfl rfl,
   (multipartUploadCopy_progress collabOk).2.1 [1, 2, 3] ⟨false, "b"⟩ "obj"
      ⟨"key", "srcb", none, none⟩ { hasProgress := true } 250000 "uid" rfl rfl
      (by decide) rfl rfl rfl,
   (multipartUploadCopy_progress collabOk).2.2 [1, 2, 3] ⟨false, "b"⟩ "obj"
      ⟨"key", "srcb", none, none⟩ { hasProgress := true } rfl
      (by intro n hn; injection hn with hn; subst hn; decide)⟩

/-! ## Claim C8: the metadata request -/

/-- C8 (amended): the metadata head request is made on every invocation — it
is the first event of every trace; the size it reports is only used to
default a missing (or zero, i.e. falsy) `endOffset`, so when the caller
supplies a truthy `endOffset` the whole run is independent of the reported
size: it equals the head event followed by the continuation applied to the
caller's own offsets, an expression in which the reported size does not
occur. -/
theorem multipartUploadCopy_head_unconditional (c : Collab) (sched : List Nat)
    (st0 : ClientState) (name : String) (sourceData : SourceData) (options : MpOptions) :
    (multipartUploadCopy c sched st0 name sourceData options).trace.head? =
      some (Ev.head sourceData.sourceBucketName sourceData.sourceKey) ∧
    (∀ (n e : Nat), c.headRes = Except.ok n → sourceData.endOffset = some e → e ≠ 0 →
      multipartUploadCopy c sched st0 name sourceData options =
        ⟨Ev.head sourceData.sourceBucketName sourceData.sourceKey ::
          (multipartUploadCopyCont c sched ⟨false, st0.bucket⟩ name
            ⟨sourceData.sourceKey, sourceData.sourceBucketName,
              jsOr sourceData.startOffset 0, e⟩ options).trace,
         (multipartUploadCopyCont c sched ⟨false, st0.bucket⟩ name
            ⟨sourceData.sourceKey, sourceData.sourceBucketName,
              jsOr sourceData.startOffset 0, e⟩ options).state,
         (multipartUploadCopyCont c sched ⟨false, st0.bucket⟩ name
            ⟨sourceData.sourceKey, sourceData.sourceBucketName,
              jsOr sourceData.startOffset 0, e⟩ options).checkpoint,
         (multipartUploadCopyCont c sched ⟨false, st0.bucket⟩ name
            ⟨sourceData.sourceKey, sourceData.sourceBucketName,
              jsOr sourceData.startOffset 0, e⟩ options).result⟩) := by
  constructor
  · cases hh : c.headRes <;>
      simp [multipartUploadCopy, multipartUploadCopyCont, _getObjectMeta, hh]
  · intro n e hh he hne
    simp only [multipartUploadCopy, _getObjectMeta, hh, he]
    have hj : jsOr (some e) n = e := by simp [jsOr, hne]
    rw [hj]
    rfl

/-- Counterexample to C8 as stated: with both `startOffset` and `endOffset`
supplied by the caller, the metadata head request is still made (it is the
first event of the trace), whereas the claim says no metadata request
happens. -/
theorem multipartUploadCopy_head_despite_offsets :
    (multipartUploadCopy collabOk [1, 2, 3] ⟨false, "b"⟩ "obj"
        ⟨"key", "srcb", some 100, some 204900⟩ {}).trace.head? =
      some (Ev.head "srcb" "key") := by decide

/-- Witness for C8 (amended), applying the theorem at a concrete invocation
with both offsets supplied. -/
theorem multipartUploadCopy_head_unconditional_witness :
    (multipartUploadCopy collabOk [1, 2, 3] ⟨false, "b"⟩ "obj"
        ⟨"key", "srcb", some 100, some 204900⟩ {}).trace.head? =
      some (Ev.head "srcb" "key") ∧
    multipartUploadCopy collabOk [1, 2, 3] ⟨false, "b"⟩ "obj"
        ⟨"key", "srcb", some 100, some 204900⟩ {} =
      ⟨Ev.head "srcb" "key" ::
        (multipartUploadCopyCont collabOk [1, 2, 3] ⟨false, "b"⟩ "obj"
          ⟨"key", "srcb", jsOr (some 100) 0, 204900⟩ {}).trace,
       (multipartUploadCopyCont collabOk [1, 2, 3] ⟨false, "b"⟩ "obj"
          ⟨"key", "srcb", jsOr (some 100) 0, 204900⟩ {}).state,
       (multipartUploadCopyCont collabOk [1, 2, 3] ⟨false, "b"⟩ "obj"
          ⟨"key", "srcb", jsOr (some 100) 0, 204900⟩ {}).checkpoint,
       (multipartUploadCopyCont collabOk [1, 2, 3] ⟨false, "b"⟩ "obj"
          ⟨"key", "srcb", jsOr (some 100) 0, 204900⟩ {}).result⟩ :=
  ⟨(multipartUploadCopy_head_unconditional collabOk [1, 2, 3] ⟨false, "b"⟩ "obj"
      ⟨"key", "srcb", some 100, some 204900⟩ {}).1,
   (multipartUploadCopy_head_unconditional collabOk [1, 2, 3] ⟨false, "b"⟩ "obj"
      ⟨"key", "srcb", some 100, some 204900⟩ {}).2 250000 204900 rfl rfl (by decide)⟩

/-! ## Claims C9 and C10 -/

/-- C9: `_getObjectMeta` switches the current bucket to the source bucket for
the head request; when the head request returns successfully the previous
bucket is restored, and when it throws the restore line is skipped, leaving
the client on the source bucket. -/
theorem getObjectMeta_bucket (c : Collab) (st : ClientState) (bucket name : String) :
    (∀ n, c.headRes = Except.ok n →
      (_getObjectMeta c st bucket name).state.bucket = st.bucket) ∧
    (∀ e, c.headRes = Except.error e →
      (_getObjectMeta c st bucket name).state.bucket = bucket) := by
  constructor
  · intro n hn
    simp [_getObjectMeta, hn]
  · intro e he
    simp [_getObjectMeta, he]

/-- Fixture: like `collabOk` but the head request throws. -/
def collabHeadFail : Collab :=
  { collabOk with headRes := Except.error { message := "nohead" } }

/-- Witness for C9, applying the theorem on a succeeding and on a failing
head request. -/
theorem getObjectMeta_bucket_witness :
    (_getObjectMeta collabOk ⟨false, "orig"⟩ "srcb" "key").state.bucket = "orig" ∧
    (_getObjectMeta collabHeadFail ⟨false, "orig"⟩ "srcb" "key").state.bucket = "srcb" :=
  ⟨(getObjectMeta_bucket collabOk ⟨false, "orig"⟩ "srcb" "key").1 250000 rfl,
   (getObjectMeta_bucket collabHeadFail ⟨false, "orig"⟩ "srcb" "key").2
     { message := "nohead" } rfl⟩

/-- C10: whenever `options.checkpoint` carries a truthy `uploadId`,
`multipartUploadCopy` resumes unconditionally: after the head request it is
exactly `_resumeMultipartCopy` on the supplied checkpoint — for every
checkpoint, however small or inconsistent its `copySize` and `partSize` are —
so the minimum-size validations are skipped and no invocation in this mode
can fail with a ValidationError. -/
theorem multipartUploadCopy_resume_unconditional (c : Collab) (sched : List Nat)
    (st0 : ClientState) (name : String) (sourceData : SourceData) (options : MpOptions)
    (cp : Checkpoint) (n : Nat)
    (hcp : options.checkpoint = some cp) (hu : cp.uploadId ≠ "")
    (hh : c.headRes = Except.ok n) :
    multipartUploadCopy c sched st0 name sourceData options =
      ⟨Ev.head sourceData.sourceBucketName sourceData.sourceKey ::
        (_resumeMultipartCopy c sched ⟨false, st0.bucket⟩ cp
          ⟨sourceData.sourceKey, sourceData.sourceBucketName,
            jsOr sourceData.startOffset 0, jsOr sourceData.endOffset n⟩ options).trace,
       (_resumeMultipartCopy c sched ⟨false, st0.bucket⟩ cp
          ⟨sourceData.sourceKey, sourceData.sourceBucketName,
            jsOr sourceData.startOffset 0, jsOr sourceData.endOffset n⟩ options).state,
       some (_resumeMultipartCopy c sched ⟨false, st0.bucket⟩ cp
          ⟨sourceData.sourceKey, sourceData.sourceBucketName,
            jsOr sourceData.startOffset 0, jsOr sourceData.endOffset n⟩ options).checkpoint,
       (_resumeMultipartCopy c sched ⟨false, st0.bucket⟩ cp
          ⟨sourceData.sourceKey, sourceData.sourceBucketName,
            jsOr sourceData.startOffset 0, jsOr sourceData.endOffset n⟩ options).result⟩ ∧
    (∀ m, (multipartUploadCopy c sched st0 name sourceData options).result ≠
      Except.error (CopyErr.validation m)) := by
  have heq : multipartUploadCopy c sched st0 name sourceData options =
      ⟨Ev.head sourceData.sourceBucketName sourceData.sourceKey ::
        (_resumeMultipartCopy c sched ⟨false, st0.bucket⟩ cp
          ⟨sourceData.sourceKey, sourceData.sourceBucketName,
            jsOr sourceData.startOffset 0, jsOr sourceData.endOffset n⟩ options).trace,
       (_resumeMultipartCopy c sched ⟨false, st0.bucket⟩ cp
          ⟨sourceData.sourceKey, sourceData.sourceBucketName,
            jsOr sourceData.startOffset 0, jsOr sourceData.endOffset n⟩ options).state,
       some (_resumeMultipartCopy c sched ⟨false, st0.bucket⟩ cp
          ⟨sourceData.sourceKey, sourceData.sourceBucketName,
            jsOr sourceData.startOffset 0, jsOr sourceData.endOffset n⟩ options).checkpoint,
       (_resumeMultipartCopy c sched ⟨false, st0.bucket⟩ cp
          ⟨sourceData.sourceKey, sourceData.sourceBucketName,
            jsOr sourceData.startOffset 0, jsOr sourceData.endOffset n⟩ options).result⟩ := by
    simp only [multipartUploadCopy, multipartUploadCopyCont, _getObjectMeta, hh, hcp]
    rw [if_pos hu]
    rfl
  refine ⟨heq, fun m => ?_⟩
  rw [heq]
  exact resume_result_ne_validation c sched _ cp _ options m

/-- Fixture: a checkpoint whose `copySize` (5) and `partSize` (1) are both far
below `MIN_PART_SIZE` and mutually arbitrary — resume accepts it anyway. -/
def cpTiny : Checkpoint := ⟨"obj", 5, 1, "uid", []⟩

/-- Witness for C10: resuming with the absurd checkpoint `cpTiny`
(copySize 5, partSize 1) skips all validation and the run completes
successfully. -/
theorem multipartUploadCopy_resume_unconditional_witness :
    (multipartUploadCopy collabOk [1, 2, 3, 4, 5] ⟨false, "b"⟩ "obj"
        ⟨"key", "srcb", none, none⟩ { checkpoint := some cpTiny } =
      ⟨Ev.head "srcb" "key" ::
        (_resumeMultipartCopy collabOk [1, 2, 3, 4, 5] ⟨false, "b"⟩ cpTiny
          ⟨"key", "srcb", jsOr none 0, jsOr none 250000⟩
          { checkpoint := some cpTiny }).trace,
       (_resumeMultipartCopy collabOk [1, 2, 3, 4, 5] ⟨false, "b"⟩ cpTiny
          ⟨"key", "srcb", jsOr none 0, jsOr none 250000⟩
          { checkpoint := some cpTiny }).state,
       some (_resumeMultipartCopy collabOk [1, 2, 3, 4, 5] ⟨false, "b"⟩ cpTiny
          ⟨"key", "srcb", jsOr none 0, jsOr none 250000⟩
          { checkpoint := some cpTiny }).checkpoint,
       (_resumeMultipartCopy collabOk [1, 2, 3, 4, 5] ⟨false, "b"⟩ cpTiny
          ⟨"key", "srcb", jsOr none 0, jsOr none 250000⟩
          { checkpoint := some cpTiny }).result⟩ ∧
     (∀ m, (multipartUploadCopy collabOk [1, 2, 3, 4, 5] ⟨false, "b"⟩ "obj"
        ⟨"key", "srcb", none, none⟩ { checkpoint := some cpTiny }).result ≠
          Except.error (CopyErr.validation m))) ∧
    (multipartUploadCopy collabOk [1, 2, 3, 4, 5] ⟨false, "b"⟩ "obj"
        ⟨"key", "srcb", none, none⟩ { checkpoint := some cpTiny }).result =
      Except.ok "done" :=
  ⟨multipartUploadCopy_resume_unconditional collabOk [1, 2, 3, 4, 5] ⟨false, "b"⟩ "obj"
      ⟨"key", "srcb", none, none⟩ { checkpoint := some cpTiny } cpTiny 250000
      rfl (by decide) rfl,
   by decide⟩
